import Mathlib

/-!
# Urban radio-access topology and link-budget routines

A shallow embedding of the topology and link-budget routines of the ns-3 scenario
files `lte-urbano.cc`, `nr-6g-urbano.cc`, `nr-6g-urbano-lite.cc` and `owc_vlc.cc`.

Modelling conventions.

* A C++ `double` is an element of a linearly ordered field `α`.  The definitions are
  polymorphic in `α`, hence executable on `ℚ`; the theorems are stated on `ℝ`.
  Rounding is therefore not part of the model: every statement below is about the exact
  arithmetic the source text denotes.  Where a function is evaluated outside the domain
  of its arithmetic (`std::log10` at `d ≤ 0`), the same definition is instantiated on
  `Double α`, which adds `+inf`, `-inf` and NaN with the IEEE 754 rules for them.
* The `<cmath>` functions (`std::sqrt`, `std::cos`, `std::sin`, `std::log10`, `exp`)
  and the constant `M_PI` are parameters of the definitions that call them; the
  theorems instantiate them with `Real.sqrt`, `Real.cos`, `Real.sin`,
  `Real.logb 10`, `Real.exp` and `Real.pi`.
* A `uint32_t` loop counter that runs `for (r = 0; r < rows; r++)` never wraps
  (it stops at `rows`), so the loops are folds over `List.range rows`; the counters
  are converted to `double` exactly, which is the cast `Nat → α`.
* `std::vector::push_back` is `pos ++ [v]`.
-/

namespace Urbano

/-! ## Definitions -/

/-- The ns-3 `Vector`: a point with three `double` coordinates. -/
structure Vector (α : Type) where
  x : α
  y : α
  z : α
deriving DecidableEq, Repr

/-- `MakeHexGrid` of `lte-urbano.cc` (lines 45-61); the copies in `nr-6g-urbano.cc`
(lines 19-35) and `nr-6g-urbano-lite.cc` (lines 40-55) are the same text.  The outer
loop runs over the rows, the inner loop over the columns, and every iteration pushes
one position. -/
def MakeHexGrid {α : Type} [Field α] (sqrt : α → α) (rows cols : Nat) (isd z : α) :
    List (Vector α) :=
  let dx := isd
  let dy := isd * sqrt 3 / 2
  (List.range rows).foldl (fun pos (r : Nat) =>
    (List.range cols).foldl (fun pos (c : Nat) =>
      let x := (c : α) * dx + (if r % 2 ≠ 0 then dx / 2 else 0)
      let y := (r : α) * dy
      pos ++ [Vector.mk x y z]) pos) []

/-- The Euclidean distance computed inline by the sanity check of `nr-6g-urbano.cc`
(lines 185-188): `dx`, `dy`, `dz` are the coordinate differences and the result is
`std::sqrt(dx*dx + dy*dy + dz*dz)`. -/
def distance {α : Type} [Field α] (sqrt : α → α) (up gp : Vector α) : α :=
  let dx := up.x - gp.x
  let dy := up.y - gp.y
  let dz := up.z - gp.z
  sqrt (dx * dx + dy * dy + dz * dz)

/-- A sector node as `CreateTriSectorEnbs` leaves it: the position installed on the
node and the `Orientation` attribute (degrees) of the antenna of its eNB device. -/
structure Sector (α : Type) where
  position : Vector α
  orientation : α
deriving DecidableEq, Repr

/-- `CreateTriSectorEnbs` of `lte-urbano.cc` (lines 64-98), on the positions of the
nodes of `sites`; the result is the container `sectors` after the call.  For every
site and every `s = 0, 1, 2` one node is added to `sectors`, placed at the site
position `p`, and its device is installed with antenna orientation `bearing`. -/
def CreateTriSectorEnbs {α : Type} [Field α] (sites : List (Vector α))
    (sectors : List (Sector α)) : List (Sector α) :=
  sites.foldl (fun sectors p =>
    (List.range 3).foldl (fun sectors (s : Nat) =>
      let bearing : α := if s = 0 then 0 else (if s = 1 then 120 else 240)
      sectors ++ [Sector.mk p bearing]) sectors) sectors

/-- The body shared by the two `CreateTriSectorGnbs` (`nr-6g-urbano.cc` lines 38-74,
`nr-6g-urbano-lite.cc` lines 58-95), which differ only in the constant `offset`; the
result is the list of positions of `gnbNodes` after the call.  For every site and
every `s = 0, 1, 2` the angle is `s * 120.0 * M_PI / 180.0` and the node is placed at
`(p.x + offset * cos angle, p.y + offset * sin angle, p.z)`. -/
def CreateTriSectorGnbsWith {α : Type} [Field α] (cos sin : α → α) (pi : α) (offset : α)
    (sites : List (Vector α)) (gnbNodes : List (Vector α)) : List (Vector α) :=
  sites.foldl (fun gnbNodes p =>
    (List.range 3).foldl (fun gnbNodes (s : Nat) =>
      let angle := (s : α) * 120 * pi / 180
      let pSector := Vector.mk (p.x + offset * cos angle) (p.y + offset * sin angle) p.z
      gnbNodes ++ [pSector]) gnbNodes) gnbNodes

/-- `CreateTriSectorGnbs` of `nr-6g-urbano.cc`: `const double offset = 1.0`. -/
def Nr.CreateTriSectorGnbs {α : Type} [Field α] (cos sin : α → α) (pi : α)
    (sites : List (Vector α)) (gnbNodes : List (Vector α)) : List (Vector α) :=
  CreateTriSectorGnbsWith cos sin pi 1 sites gnbNodes

/-- `CreateTriSectorGnbs` of `nr-6g-urbano-lite.cc`: `const double offset = 3.0`. -/
def NrLite.CreateTriSectorGnbs {α : Type} [Field α] (cos sin : α → α) (pi : α)
    (sites : List (Vector α)) (gnbNodes : List (Vector α)) : List (Vector α) :=
  CreateTriSectorGnbsWith cos sin pi 3 sites gnbNodes

/-! ### The optical loss functions of `owc_vlc.cc`

The two functions are polymorphic in the number type: the theorems on positive distances
instantiate them on `ℝ` with `Real.logb 10`, the theorems on distances `d ≤ 0`, where
`std::log10` returns `-inf` or NaN, on `Double ℝ` with `Double.log10`. -/

/-- A `double` with its non-finite values: a finite number, `+inf`, `-inf` or NaN.
Signed zeros and rounding are not modelled. -/
inductive Double (α : Type) where
  | fin (v : α)
  | posInf
  | negInf
  | nan
deriving DecidableEq, Repr

/-- Negation of a `double` (IEEE 754). -/
def Double.neg {α : Type} [LinearOrderedField α] : Double α → Double α
  | Double.fin v => Double.fin (-v)
  | Double.posInf => Double.negInf
  | Double.negInf => Double.posInf
  | Double.nan => Double.nan

/-- Addition of `double`s (IEEE 754): NaN is absorbing, `+inf + -inf` is NaN, an
infinity absorbs a finite number. -/
def Double.add {α : Type} [LinearOrderedField α] : Double α → Double α → Double α
  | Double.fin a, Double.fin b => Double.fin (a + b)
  | Double.nan, _ => Double.nan
  | _, Double.nan => Double.nan
  | Double.posInf, Double.negInf => Double.nan
  | Double.negInf, Double.posInf => Double.nan
  | Double.posInf, _ => Double.posInf
  | _, Double.posInf => Double.posInf
  | Double.negInf, _ => Double.negInf
  | _, Double.negInf => Double.negInf

/-- Subtraction of `double`s: `a - b = a + (-b)`. -/
def Double.sub {α : Type} [LinearOrderedField α] (a b : Double α) : Double α :=
  Double.add a (Double.neg b)

/-- An infinity times a finite number `b`: the sign follows the sign of `b`, and
`inf * 0` is NaN. -/
def Double.scaleInf {α : Type} [LinearOrderedField α] (inf : Double α) (b : α) : Double α :=
  if 0 < b then inf else if b < 0 then Double.neg inf else Double.nan

/-- Multiplication of `double`s (IEEE 754). -/
def Double.mul {α : Type} [LinearOrderedField α] : Double α → Double α → Double α
  | Double.fin a, Double.fin b => Double.fin (a * b)
  | Double.nan, _ => Double.nan
  | _, Double.nan => Double.nan
  | Double.posInf, Double.fin b => Double.scaleInf Double.posInf b
  | Double.negInf, Double.fin b => Double.scaleInf Double.negInf b
  | Double.fin a, Double.posInf => Double.scaleInf Double.posInf a
  | Double.fin a, Double.negInf => Double.scaleInf Double.negInf a
  | Double.posInf, Double.posInf => Double.posInf
  | Double.negInf, Double.negInf => Double.posInf
  | Double.posInf, Double.negInf => Double.negInf
  | Double.negInf, Double.posInf => Double.negInf

/-- Division of `double`s (IEEE 754, the zero divisor read as `+0`): a non-zero finite
number over zero is an infinity, `0 / 0` and `inf / inf` are NaN, a finite number over
an infinity is `0`. -/
def Double.div {α : Type} [LinearOrderedField α] : Double α → Double α → Double α
  | Double.fin a, Double.fin b =>
    if b = 0 then Double.scaleInf Double.posInf a else Double.fin (a / b)
  | Double.nan, _ => Double.nan
  | _, Double.nan => Double.nan
  | Double.fin _, _ => Double.fin 0
  | Double.posInf, Double.fin b => if 0 ≤ b then Double.posInf else Double.negInf
  | Double.negInf, Double.fin b => if 0 ≤ b then Double.negInf else Double.posInf
  | _, _ => Double.nan

/-- `std::log10` on a `double`: the logarithm of a positive finite number, `-inf` at
`0` (pole), NaN at a negative number, `+inf` at `+inf`, NaN otherwise. -/
def Double.log10 {α : Type} [LinearOrderedField α] (log10 : α → α) : Double α → Double α
  | Double.fin d => if 0 < d then Double.fin (log10 d) else if d = 0 then Double.negInf else Double.nan
  | Double.posInf => Double.posInf
  | _ => Double.nan

/-- The operator `+` on `double`s. -/
instance Double.instAdd {α : Type} [LinearOrderedField α] : Add (Double α) := ⟨Double.add⟩

/-- The operator `-` on `double`s. -/
instance Double.instSub {α : Type} [LinearOrderedField α] : Sub (Double α) := ⟨Double.sub⟩

/-- The operator `*` on `double`s. -/
instance Double.instMul {α : Type} [LinearOrderedField α] : Mul (Double α) := ⟨Double.mul⟩

/-- The operator `/` on `double`s. -/
instance Double.instDiv {α : Type} [LinearOrderedField α] : Div (Double α) := ⟨Double.div⟩

/-- A numeric literal as a `double`. -/
instance Double.instOfNat {α : Type} [LinearOrderedField α] (n : Nat) : OfNat (Double α) n :=
  ⟨Double.fin (n : α)⟩


/-- `CalculateVlcLoss` of `owc_vlc.cc` (lines 14-23). -/
def CalculateVlcLoss {α : Type} [Mul α] [Sub α] [OfNat α 1] [OfNat α 10]
    (log10 : α → α) (distance : α) : α :=
  let n : α := 1
  let referenceLoss : α := 1
  let loss := 10 * n * log10 distance - referenceLoss
  loss

/-- `CalculateOwcLoss` of `owc_vlc.cc` (lines 25-35). -/
def CalculateOwcLoss {α : Type} [Add α] [Mul α] [Div α] [OfNat α 1] [OfNat α 2] [OfNat α 10]
    (log10 : α → α) (distance : α) : α :=
  let n : α := 2
  let referenceDistance : α := 1
  let referenceLoss : α := 1
  let loss := referenceLoss + 10 * n * log10 (distance / referenceDistance)
  loss

/-! ### Strings and the rate adaptation of `owc_vlc.cc`

`std::stod` and `std::to_string` are library functions.  `std::stod` is modelled on
decimal and hexadecimal notation: optional white space, optional sign, then either `0x`
with hexadecimal digits, an optional fraction and an optional binary exponent, or decimal
digits with an optional fraction and an optional decimal exponent; trailing characters
are ignored.  It returns no value when there is no numeral (`std::invalid_argument`) and
when the numeral is outside the range of `double` (`std::out_of_range`); the spellings
`inf` and `nan`, which it reads as non-finite values, have no value in the model either.
A value read is the exact value of the numeral.  `std::to_string(double)` is the fixed
six-digit format. -/

/-- `std::string::substr(pos, n)` for `pos ≤ size()`: at most `n` characters from `pos`. -/
def substr (s : String) (pos n : Nat) : String :=
  String.mk ((s.data.drop pos).take n)

/-- The `isspace` characters of the C locale, which `std::stod` skips. -/
def isSpace (c : Char) : Bool :=
  c = ' ' || c = '\t' || c = '\n' || c = '\x0b' || c = '\x0c' || c = '\r'

/-- Value of a string of decimal digits. -/
def digitsVal (ds : List Char) : Nat :=
  ds.foldl (fun n c => 10 * n + (c.toNat - '0'.toNat)) 0

/-- The hexadecimal digits. -/
def isHexDigit (c : Char) : Bool :=
  c.isDigit || ('a' ≤ c && c ≤ 'f') || ('A' ≤ c && c ≤ 'F')

/-- Value of one hexadecimal digit. -/
def hexDigitVal (c : Char) : Nat :=
  if c.isDigit then c.toNat - '0'.toNat
  else if 'a' ≤ c ∧ c ≤ 'f' then c.toNat - 'a'.toNat + 10
  else c.toNat - 'A'.toNat + 10

/-- Value of a string of hexadecimal digits. -/
def hexVal (ds : List Char) : Nat :=
  ds.foldl (fun n c => 16 * n + hexDigitVal c) 0

/-- A numeral as `std::stod` reads it: sign, notation (decimal or hexadecimal), the
digits of the integer and fraction parts read as one natural number, the number of
fraction digits, and the exponent (of ten in decimal, of two in hexadecimal notation). -/
structure Decimal where
  neg : Bool
  hex : Bool
  mantissa : Nat
  fracDigits : Nat
  exponent : Int
deriving DecidableEq, Repr

/-- The number a numeral denotes. -/
def Decimal.value {α : Type} [Field α] (d : Decimal) : α :=
  let m : α :=
    if d.hex then (d.mantissa : α) / 16 ^ d.fracDigits * 2 ^ d.exponent
    else (d.mantissa : α) / 10 ^ d.fracDigits * 10 ^ d.exponent
  if d.neg then -m else m

/-- The exponent part of a numeral: the exponent mark (`e` or `p`, in either case), an
optional sign, digits; absent or without digits it contributes `0`. -/
def stodExponent (mark : Char) (cs : List Char) : Int :=
  if cs.head? = some mark ∨ cs.head? = some mark.toUpper then
    if cs.tail.head? = some '-' then - (digitsVal (cs.tail.tail.takeWhile Char.isDigit) : Int)
    else if cs.tail.head? = some '+' then (digitsVal (cs.tail.tail.takeWhile Char.isDigit) : Int)
    else (digitsVal (cs.tail.takeWhile Char.isDigit) : Int)
  else 0

/-- A hexadecimal numeral at the start of `cs`: `0x` or `0X`, hexadecimal digits with an
optional fraction (at least one digit), an optional binary exponent. -/
def strtodHex (neg : Bool) (cs : List Char) : Option Decimal :=
  if cs.head? = some '0' ∧ (cs.tail.head? = some 'x' ∨ cs.tail.head? = some 'X') then
    let rest := cs.tail.tail
    let ip := rest.takeWhile isHexDigit
    let cs := rest.dropWhile isHexDigit
    let fp := if cs.head? = some '.' then cs.tail.takeWhile isHexDigit else []
    let cs := if cs.head? = some '.' then cs.tail.dropWhile isHexDigit else cs
    if ip = [] ∧ fp = [] then none
    else some (Decimal.mk neg true (hexVal (ip ++ fp)) fp.length (stodExponent 'p' cs))
  else none

/-- A decimal numeral at the start of `cs`: digits with an optional fraction (at least
one digit), an optional decimal exponent. -/
def strtodDec (neg : Bool) (cs : List Char) : Option Decimal :=
  let ip := cs.takeWhile Char.isDigit
  let cs := cs.dropWhile Char.isDigit
  let fp := if cs.head? = some '.' then cs.tail.takeWhile Char.isDigit else []
  let cs := if cs.head? = some '.' then cs.tail.dropWhile Char.isDigit else cs
  if ip = [] ∧ fp = [] then none
  else some (Decimal.mk neg false (digitsVal (ip ++ fp)) fp.length (stodExponent 'e' cs))

/-- The longest numeral at the start of `s`, after white space and an optional sign;
`none` when there is no digit to read. -/
def strtodDecimal (s : String) : Option Decimal :=
  let cs := s.data.dropWhile isSpace
  let neg : Bool := cs.head? = some '-'
  let cs := if cs.head? = some '-' ∨ cs.head? = some '+' then cs.tail else cs
  match strtodHex neg cs with
  | some d => some d
  | none => strtodDec neg cs

/-- The values `std::stod` returns without `std::out_of_range`: zero, and the numbers of
magnitude at least `DBL_MIN = 2 ^ (-1022)` and below `2 ^ 1024 - 2 ^ 970`, where rounding
to `double` overflows. -/
def inDoubleRange {α : Type} [LinearOrderedField α] (v : α) : Prop :=
  v = 0 ∨ (1 / 2 ^ 1022 ≤ |v| ∧ |v| < 2 ^ 1024 - 2 ^ 970)

/-- The range test is decidable. -/
instance inDoubleRange.decidable {α : Type} [LinearOrderedField α] (v : α) :
    Decidable (inDoubleRange v) := by
  unfold inDoubleRange; infer_instance

/-- `std::stod`; `none` is an exception: `std::invalid_argument` when there is no numeral,
`std::out_of_range` when its value is outside the range of `double`. -/
def stod {α : Type} [LinearOrderedField α] (s : String) : Option α :=
  match strtodDecimal s with
  | none => none
  | some d => if inDoubleRange (d.value : α) then some d.value else none

/-- The character of a decimal digit. -/
def digitChar (d : Fin 10) : Char := Char.ofNat ('0'.toNat + d.val)

/-- The decimal numeral with integer digits `ip` and fraction digits `fp`, most
significant digit first: the digits of `ip`, then, when `fp` is not empty, a point and
the digits of `fp`. -/
def numeralString (ip fp : List (Fin 10)) : String :=
  String.mk (ip.map digitChar ++ (if fp = [] then [] else '.' :: fp.map digitChar))

/-- The number that the decimal numeral with integer digits `ip` and fraction digits `fp`
denotes: all its digits read as one integer in base ten, over `10 ^ fp.length`. -/
def numeralValue {α : Type} [Field α] (ip fp : List (Fin 10)) : α :=
  ((Nat.ofDigits 10 ((ip ++ fp).reverse.map Fin.val) : Nat) : α) / 10 ^ fp.length

/-- Rounding to the nearest integer, ties to even. -/
def roundHalfEven {α : Type} [LinearOrderedField α] [FloorRing α] (y : α) : Int :=
  let f := Int.floor y
  if y - f < 1 / 2 then f
  else if 1 / 2 < y - f then f + 1
  else if f % 2 = 0 then f else f + 1

/-- Six decimal digits, padded with zeros on the left. -/
def pad6 (n : Nat) : String :=
  String.mk (List.replicate (6 - (Nat.repr n).length) '0') ++ Nat.repr n

/-- `std::to_string(double)`: the format `%f`, six digits after the decimal point. -/
def to_string {α : Type} [LinearOrderedField α] [FloorRing α] (v : α) : String :=
  let n : Nat := (roundHalfEven (|v| * 10 ^ 6)).toNat
  (if v < 0 then "-" else "") ++ Nat.repr (n / 10 ^ 6) ++ "." ++ pad6 (n % 10 ^ 6)

/-- Subtraction on `size_t` (64 bits, wrapping), for `a, b < 2 ^ 64 = 18446744073709551616`:
`a - b` when `b ≤ a`, and `a + 2 ^ 64 - b` otherwise. -/
def sizeSub (a b : Nat) : Nat :=
  if b ≤ a then a - b else a + 18446744073709551616 - b

/-- The local `adjustedDataRateMbps` of `AdjustDataRate` (`owc_vlc.cc`, lines 39-42):
the nominal rate is read from all but the last four characters of the string
(`length() - 4` is a `size_t` subtraction) and multiplied by
`exp(-propagationLoss / 10.0)`. -/
def AdjustDataRateMbps {α : Type} [LinearOrderedField α] (exp : α → α)
    (originalDataRate : String) (propagationLoss : α) : Option α :=
  match stod (substr originalDataRate 0 (sizeSub originalDataRate.length 4)) with
  | none => none
  | some originalDataRateMbps =>
    some (originalDataRateMbps * exp (-propagationLoss / 10))

/-- `AdjustDataRate` of `owc_vlc.cc` (lines 37-45): the adjusted rate, printed by
`std::to_string`, followed by `"Mbps"`. -/
def AdjustDataRate {α : Type} [LinearOrderedField α] [FloorRing α] (exp : α → α)
    (originalDataRate : String) (propagationLoss : α) : Option String :=
  match AdjustDataRateMbps exp originalDataRate propagationLoss with
  | none => none
  | some adjustedDataRateMbps => some (to_string adjustedDataRateMbps ++ "Mbps")

/-- The last four characters of a rate string: its unit suffix. -/
def unitSuffix (s : String) : String :=
  String.mk (s.data.drop (s.data.length - 4))

/-! ### The collocation sanity check of `nr-6g-urbano.cc` -/

/-- The threshold `const double eps = 0.1` of the sanity check. -/
def eps {α : Type} [LinearOrderedField α] : α := 0.1

/-- One iteration of the inner loop of the sanity check (`nr-6g-urbano.cc`, lines
183-194) for the UE whose position, read once before the loop, is `up`, at the gNB at
`gp`.  The state is the position of the UE mobility model and the number of calls of
`std::rand` made so far; `rand k` is the value returned by call number `k`. -/
def SanityCheckStep {α : Type} [LinearOrderedField α] (sqrt : α → α) (rand : Nat → Nat)
    (up : Vector α) (st : Vector α × Nat) (gp : Vector α) : Vector α × Nat :=
  let dist := distance sqrt up gp
  if dist < eps then
    let jitter : α := 0.5 + (0.5 * ((rand st.2 % 100 : Nat) : α) / 100)
    (Vector.mk (up.x + jitter) (up.y + jitter) up.z, st.2 + 1)
  else st

/-- The inner loop of the sanity check (`nr-6g-urbano.cc`, lines 179-195) for one UE:
its position `up` is read once, then every gNB is checked in order. -/
def SanityCheckUe {α : Type} [LinearOrderedField α] (sqrt : α → α) (rand : Nat → Nat)
    (gnbNodes : List (Vector α)) (up : Vector α) (calls : Nat) : Vector α × Nat :=
  gnbNodes.foldl (SanityCheckStep sqrt rand up) (up, calls)

/-- The sanity check pass (`nr-6g-urbano.cc`, lines 174-196) over all UEs, in order:
the positions of the UEs after the pass and the number of `std::rand` calls made.  The
pass calls `SetPosition` on UE mobility models only: the positions of the gNBs are read,
never written. -/
def SanityCheck {α : Type} [LinearOrderedField α] (sqrt : α → α) (rand : Nat → Nat)
    (gnbNodes ueNodes : List (Vector α)) (calls : Nat) : List (Vector α) × Nat :=
  ueNodes.foldl (fun (st : List (Vector α) × Nat) up =>
    let r := SanityCheckUe sqrt rand gnbNodes up st.2
    (st.1 ++ [r.1], r.2)) ([], calls)

/-- Modelled from the spec: the macro-cell log-distance loss
`loss(d) = referenceLoss + 10 * n * log10(d)` of section 4.3.  The function itself is
the `LogDistancePropagationLossModel` of ns-3, which `lte-urbano.cc` selects (line 122)
and configures, and whose code is not among the sources. -/
def LogDistanceLoss {α : Type} [Field α] (log10 : α → α) (referenceLoss n d : α) : α :=
  referenceLoss + 10 * n * log10 d

/-- The `Exponent` that `lte-urbano.cc` configures (lines 125-126). -/
def Lte.Exponent {α : Type} [LinearOrderedField α] : α := 3.7

/-- The `ReferenceLoss` that `lte-urbano.cc` configures (lines 130-131). -/
def Lte.ReferenceLoss {α : Type} [LinearOrderedField α] : α := 40.7

/-- The carrier frequency of `nr-6g-urbano-lite.cc` (line 105), in Hz. -/
def NrLite.centralFreq {α : Type} [LinearOrderedField α] : α := 28e9

/-- The local `refLoss` of `main` in `nr-6g-urbano-lite.cc` (lines 143-144). -/
def NrLite.refLoss {α : Type} [LinearOrderedField α] (log10 : α → α) (centralFreq : α) : α :=
  let freqMHz := centralFreq / 1e6
  let refLoss := 32.45 + 20 * log10 freqMHz
  refLoss

/-! ## Auxiliary lemmas on the loops -/

/-- A loop that pushes one element per iteration appends the image of its range. -/
theorem foldl_push_back {β γ : Type} (f : β → γ) (l : List β) (init : List γ) :
    l.foldl (fun pos b => pos ++ [f b]) init = init ++ l.map f := by
  induction l generalizing init with
  | nil => simp
  | cons b l ih => simp [ih]

/-- A loop that appends a block per iteration appends the concatenation of the blocks. -/
theorem foldl_append_block {β γ : Type} (g : β → List γ) (l : List β) (init : List γ) :
    l.foldl (fun pos b => pos ++ g b) init = init ++ l.flatMap g := by
  induction l generalizing init with
  | nil => simp
  | cons b l ih => simp [ih]

/-- The nested loops of `MakeHexGrid`, row by row. -/
theorem MakeHexGrid_eq_flatMap {α : Type} [Field α] (sqrt : α → α) (rows cols : Nat)
    (isd z : α) :
    MakeHexGrid sqrt rows cols isd z =
      (List.range rows).flatMap (fun (r : Nat) => (List.range cols).map (fun (c : Nat) =>
        Vector.mk ((c : α) * isd + (if r % 2 ≠ 0 then isd / 2 else 0))
          ((r : α) * (isd * sqrt 3 / 2)) z)) := by
  unfold MakeHexGrid
  simp only [foldl_push_back]
  rw [foldl_append_block]
  simp

/-- Length of a row-major enumeration. -/
theorem length_flatMap_range_map {γ : Type} (f : Nat → Nat → γ) (rows cols : Nat) :
    ((List.range rows).flatMap (fun r => (List.range cols).map (f r))).length
      = rows * cols := by
  induction rows with
  | zero => simp
  | succ n ih =>
    rw [List.range_succ, List.flatMap_append, List.length_append, ih]
    simp [Nat.succ_mul]

/-- Row-major indexing: entry `r * cols + c` is the one pushed at row `r`, column `c`. -/
theorem getElem?_flatMap_range_map {γ : Type} (f : Nat → Nat → γ) (rows cols r c : Nat)
    (hr : r < rows) (hc : c < cols) :
    ((List.range rows).flatMap (fun r => (List.range cols).map (f r)))[r * cols + c]?
      = some (f r c) := by
  induction rows with
  | zero => omega
  | succ n ih =>
    rw [List.range_succ, List.flatMap_append]
    by_cases hrn : r < n
    · have hlt : r * cols + c < n * cols := by
        calc r * cols + c < r * cols + cols := by omega
          _ = (r + 1) * cols := by ring
          _ ≤ n * cols := Nat.mul_le_mul_right cols hrn
      rw [List.getElem?_append_left (by rw [length_flatMap_range_map]; exact hlt)]
      exact ih hrn
    · have hrn2 : r = n := by omega
      subst hrn2
      rw [List.getElem?_append_right (by rw [length_flatMap_range_map]; omega)]
      rw [length_flatMap_range_map]
      simp [hc]

/-- The site pushed at row `r`, column `c`, in the form the source computes it. -/
theorem MakeHexGrid_site {α : Type} [Field α] (sqrt : α → α) (rows cols r c : Nat)
    (isd z : α) (hr : r < rows) (hc : c < cols) :
    (MakeHexGrid sqrt rows cols isd z)[r * cols + c]? =
      some (Vector.mk ((c : α) * isd + (if r % 2 ≠ 0 then isd / 2 else 0))
        ((r : α) * (isd * sqrt 3 / 2)) z) := by
  rw [MakeHexGrid_eq_flatMap]
  exact getElem?_flatMap_range_map
    (fun (r c : Nat) => Vector.mk ((c : α) * isd + (if r % 2 ≠ 0 then isd / 2 else 0))
        ((r : α) * (isd * sqrt 3 / 2)) z) rows cols r c hr hc

/-- Two decimal bounds on `300 * sqrt 3`. -/
theorem sqrt3_bounds : (519.614 : ℝ) < 300 * Real.sqrt 3 ∧ 300 * Real.sqrt 3 < 519.616 := by
  have h1 : (1.73205 : ℝ) < Real.sqrt 3 := by
    rw [Real.lt_sqrt (by norm_num)]; norm_num
  have h2 : Real.sqrt 3 < 1.732051 := by
    rw [Real.sqrt_lt' (by norm_num)]; norm_num
  constructor <;> linarith

/-- The distance of two points that differ only in `x`. -/
theorem distance_same_yz (x₁ x₂ y z : ℝ) :
    distance Real.sqrt (Vector.mk x₁ y z) (Vector.mk x₂ y z) = |x₁ - x₂| := by
  simp only [distance, sub_self, mul_zero, add_zero]
  rw [← sq, Real.sqrt_sq_eq_abs]

/-- Indexing a list of blocks of three: entry `3 * i + s` is the `s`-th element of block `i`. -/
theorem getElem?_flatMap_three {β γ : Type} (f₀ f₁ f₂ : β → γ) (l : List β) (i : Nat) (p : β)
    (h : l[i]? = some p) :
    (l.flatMap (fun p => [f₀ p, f₁ p, f₂ p]))[3 * i]? = some (f₀ p) ∧
    (l.flatMap (fun p => [f₀ p, f₁ p, f₂ p]))[3 * i + 1]? = some (f₁ p) ∧
    (l.flatMap (fun p => [f₀ p, f₁ p, f₂ p]))[3 * i + 2]? = some (f₂ p) := by
  induction l generalizing i with
  | nil => simp at h
  | cons a l ih =>
    cases i with
    | zero =>
      simp only [List.getElem?_cons_zero, Option.some.injEq] at h
      subst h
      simp
    | succ j =>
      simp only [List.getElem?_cons_succ] at h
      obtain ⟨h0, h1, h2⟩ := ih j h
      have e0 : 3 * (j + 1) = (3 * j) + 1 + 1 + 1 := by ring
      have e1 : 3 * (j + 1) + 1 = (3 * j + 1) + 1 + 1 + 1 := by ring
      have e2 : 3 * (j + 1) + 2 = (3 * j + 2) + 1 + 1 + 1 := by ring
      rw [e2, e1, e0]
      simp only [List.flatMap_cons, List.cons_append, List.nil_append,
        List.getElem?_cons_succ]
      exact ⟨h0, h1, h2⟩

/-- Length of a list of blocks of three. -/
theorem length_flatMap_three {β γ : Type} (f₀ f₁ f₂ : β → γ) (l : List β) :
    (l.flatMap (fun p => [f₀ p, f₁ p, f₂ p])).length = 3 * l.length := by
  induction l with
  | nil => simp
  | cons a l ih =>
    simp only [List.flatMap_cons, List.length_append, ih, List.length_cons, List.length_nil]
    ring

/-- The loops of `CreateTriSectorEnbs` add, per site, the three sectors in order. -/
theorem CreateTriSectorEnbs_eq {α : Type} [Field α] (sites : List (Vector α))
    (sectors : List (Sector α)) :
    CreateTriSectorEnbs sites sectors =
      sectors ++ sites.flatMap (fun p => [Sector.mk p 0, Sector.mk p 120, Sector.mk p 240]) := by
  unfold CreateTriSectorEnbs
  simp only [foldl_push_back]
  rw [foldl_append_block]
  simp [List.range_succ]

/-- The loops of `CreateTriSectorGnbs` add, per site, the three offset positions in order. -/
theorem CreateTriSectorGnbsWith_eq {α : Type} [Field α] (cos sin : α → α) (pi offset : α)
    (sites : List (Vector α)) (gnbNodes : List (Vector α)) :
    CreateTriSectorGnbsWith cos sin pi offset sites gnbNodes =
      gnbNodes ++ sites.flatMap (fun p =>
        [Vector.mk (p.x + offset * cos (((0 : Nat) : α) * 120 * pi / 180))
            (p.y + offset * sin (((0 : Nat) : α) * 120 * pi / 180)) p.z,
         Vector.mk (p.x + offset * cos (((1 : Nat) : α) * 120 * pi / 180))
            (p.y + offset * sin (((1 : Nat) : α) * 120 * pi / 180)) p.z,
         Vector.mk (p.x + offset * cos (((2 : Nat) : α) * 120 * pi / 180))
            (p.y + offset * sin (((2 : Nat) : α) * 120 * pi / 180)) p.z]) := by
  unfold CreateTriSectorGnbsWith
  simp only [foldl_push_back]
  rw [foldl_append_block]
  simp [List.range_succ]

/-- The angles `0`, `120` and `240` degrees in radians, as the source computes them. -/
theorem sector_angles :
    ((0 : Nat) : ℝ) * 120 * Real.pi / 180 = 0 ∧
    ((1 : Nat) : ℝ) * 120 * Real.pi / 180 = Real.pi - Real.pi / 3 ∧
    ((2 : Nat) : ℝ) * 120 * Real.pi / 180 = Real.pi / 3 + Real.pi := by
  refine ⟨?_, ?_, ?_⟩ <;> push_cast <;> ring

/-- Cosine and sine of the three sector angles. -/
theorem sector_cos_sin :
    Real.cos (((0 : Nat) : ℝ) * 120 * Real.pi / 180) = 1 ∧
    Real.sin (((0 : Nat) : ℝ) * 120 * Real.pi / 180) = 0 ∧
    Real.cos (((1 : Nat) : ℝ) * 120 * Real.pi / 180) = -(1 / 2) ∧
    Real.sin (((1 : Nat) : ℝ) * 120 * Real.pi / 180) = Real.sqrt 3 / 2 ∧
    Real.cos (((2 : Nat) : ℝ) * 120 * Real.pi / 180) = -(1 / 2) ∧
    Real.sin (((2 : Nat) : ℝ) * 120 * Real.pi / 180) = -(Real.sqrt 3 / 2) := by
  obtain ⟨a0, a1, a2⟩ := sector_angles
  rw [a0, a1, a2]
  refine ⟨Real.cos_zero, Real.sin_zero, ?_, ?_, ?_, ?_⟩
  · rw [Real.cos_pi_sub, Real.cos_pi_div_three]
  · rw [Real.sin_pi_sub, Real.sin_pi_div_three]
  · rw [Real.cos_add_pi, Real.cos_pi_div_three]
  · rw [Real.sin_add_pi, Real.sin_pi_div_three]

/-- Every sector that `CreateTriSectorEnbs` emits at index `3 * i + s` belongs to a site `i`. -/
theorem site_of_sector_index {β γ : Type} (sites : List β) (out : List γ)
    (hlen : out.length = 3 * sites.length) (i s : Nat) (a : γ)
    (ha : out[3 * i + s]? = some a) : ∃ p, sites[i]? = some p := by
  have hlt : 3 * i + s < out.length := by
    by_contra hge
    rw [List.getElem?_eq_none (by omega)] at ha
    exact Option.noConfusion ha
  have hi : i < sites.length := by omega
  exact ⟨sites[i], List.getElem?_eq_getElem hi⟩

/-! ## Auxiliary lemmas on strings and rates -/

/-- `substr(0, length() - 4)` removes a four-character suffix. -/
theorem substr_strip_suffix (num suf : String) (hsuf : suf.length = 4) :
    substr (num ++ suf) 0 (sizeSub (num ++ suf).length 4) = num := by
  have h1 : sizeSub (num ++ suf).length 4 = num.length := by
    rw [String.length_append, hsuf]
    unfold sizeSub
    rw [if_pos (Nat.le_add_left 4 num.length), Nat.add_sub_cancel]
  rw [h1]
  unfold substr
  have h2 : num.data.length = num.length := rfl
  rw [String.data_append, List.drop_zero, List.take_left' h2]

/-- The unit suffix of a string that ends with four given characters. -/
theorem unitSuffix_append (a suf : String) (hsuf : suf.length = 4) :
    unitSuffix (a ++ suf) = suf := by
  unfold unitSuffix
  have h4 : suf.data.length = 4 := hsuf
  rw [String.data_append, List.length_append, h4, Nat.add_sub_cancel, List.drop_left' rfl]

/-- The value computed for a numeral followed by a four-character suffix. -/
theorem AdjustDataRateMbps_append {α : Type} [LinearOrderedField α] (exp : α → α)
    (num suf : String) (x L : α) (hsuf : suf.length = 4) (hx : stod num = some x) :
    AdjustDataRateMbps exp (num ++ suf) L = some (x * exp (-L / 10)) := by
  unfold AdjustDataRateMbps
  rw [substr_strip_suffix num suf hsuf, hx]

/-- The numbers `1` and `1 / 4` are in the range of `double`; `10 ^ 999` is not. -/
theorem inDoubleRange_examples :
    inDoubleRange (1 : ℝ) ∧ inDoubleRange ((1 : ℝ) / 4) ∧
    ¬ inDoubleRange ((10 : ℝ) ^ (999 : ℤ)) := by
  refine ⟨?_, ?_, ?_⟩
  · right
    rw [abs_one]
    constructor
    · rw [div_le_iff₀ (by positivity)]
      norm_num
    · norm_num
  · right
    rw [abs_of_pos (by norm_num)]
    constructor
    · exact one_div_le_one_div_of_le (by norm_num) (by norm_num)
    · norm_num
  · unfold inDoubleRange
    rw [not_or]
    constructor
    · positivity
    · rw [not_and, not_lt]
      intro _
      rw [abs_of_pos (by positivity)]
      norm_num

/-- The numerals `"0"` and `"1"`, read by `std::stod`. -/
theorem stod_zero_one : (stod "0" : Option ℝ) = some 0 ∧ (stod "1" : Option ℝ) = some 1 := by
  have h0 : strtodDecimal "0" = some (Decimal.mk false false 0 0 0) := by decide
  have h1 : strtodDecimal "1" = some (Decimal.mk false false 1 0 0) := by decide
  have v0 : (Decimal.mk false false 0 0 0).value = (0 : ℝ) := by
    simp only [Decimal.value]; norm_num
  have v1 : (Decimal.mk false false 1 0 0).value = (1 : ℝ) := by
    simp only [Decimal.value]; norm_num
  constructor
  · have r0 : inDoubleRange (0 : ℝ) := Or.inl rfl
    simp only [stod, h0, v0]
    rw [if_pos r0]
  · simp only [stod, h1, v1]
    rw [if_pos inDoubleRange_examples.1]

/-- The numeral `"1e999"` is outside the range of `double`: `std::stod` throws. -/
theorem stod_out_of_range : (stod "1e999" : Option ℝ) = none := by
  have h : strtodDecimal "1e999" = some (Decimal.mk false false 1 0 999) := by decide
  have v : (Decimal.mk false false 1 0 999).value = (10 : ℝ) ^ (999 : ℤ) := by
    simp only [Decimal.value]; norm_num
  simp only [stod, h, v]
  rw [if_neg inDoubleRange_examples.2.2]

/-- What the parser needs to know of a digit character. -/
theorem digitChar_facts : ∀ d : Fin 10,
    (digitChar d).isDigit = true ∧ isSpace (digitChar d) = false ∧
    (digitChar d).toNat - '0'.toNat = d.val ∧
    digitChar d ≠ '-' ∧ digitChar d ≠ '+' ∧ digitChar d ≠ '.' ∧
    digitChar d ≠ 'x' ∧ digitChar d ≠ 'X' := by
  decide

/-- Reading digits stops after a run of digit characters. -/
theorem takeWhile_digits (l : List (Fin 10)) (t : List Char) :
    (l.map digitChar ++ t).takeWhile Char.isDigit = l.map digitChar ++ t.takeWhile Char.isDigit ∧
    (l.map digitChar ++ t).dropWhile Char.isDigit = t.dropWhile Char.isDigit := by
  induction l with
  | nil => simp
  | cons a l ih =>
    have h := (digitChar_facts a).1
    simp only [List.map_cons, List.cons_append, List.takeWhile_cons, List.dropWhile_cons, h,
      if_true, ih.1, ih.2, and_self]

/-- The digit loop of the parser computes the base-ten value. -/
theorem digitsVal_foldl (l : List (Fin 10)) (n : Nat) :
    (l.map digitChar).foldl (fun n c => 10 * n + (c.toNat - '0'.toNat)) n
      = n * 10 ^ l.length + Nat.ofDigits 10 (l.reverse.map Fin.val) := by
  induction l generalizing n with
  | nil => simp
  | cons a l ih =>
    simp only [List.map_cons, List.foldl_cons, ih, (digitChar_facts a).2.2.1, List.reverse_cons,
      List.map_append, List.map_nil, Nat.ofDigits_append, List.length_map, List.length_reverse,
      List.length_cons, Nat.ofDigits_singleton]
    ring

/-- The value the parser gives to a run of digit characters. -/
theorem digitsVal_digits (l : List (Fin 10)) :
    digitsVal (l.map digitChar) = Nat.ofDigits 10 (l.reverse.map Fin.val) := by
  unfold digitsVal
  rw [digitsVal_foldl]
  simp

/-- The decimal branch of the parser on a decimal numeral. -/
theorem strtodDec_numeral (ip fp : List (Fin 10)) (hip : ip ≠ []) :
    strtodDec false (ip.map digitChar ++ (if fp = [] then [] else '.' :: fp.map digitChar)) =
      some (Decimal.mk false false (digitsVal ((ip ++ fp).map digitChar)) fp.length 0) := by
  have hne : ip.map digitChar ≠ [] := by simpa using hip
  unfold strtodDec
  by_cases hfp : fp = []
  · subst hfp
    have e := takeWhile_digits ip []
    simp only [List.takeWhile_nil, List.dropWhile_nil, List.append_nil] at e
    simp only [if_true, List.append_nil, e.1, e.2, List.head?_nil, List.map_nil,
      List.length_nil, hne, false_and, if_false, stodExponent]
    simp
  · have e := takeWhile_digits ip ('.' :: fp.map digitChar)
    have hdot : Char.isDigit '.' = false := by decide
    simp only [List.takeWhile_cons, List.dropWhile_cons, hdot, Bool.false_eq_true, if_false,
      List.append_nil] at e
    have e2 := takeWhile_digits fp []
    simp only [List.takeWhile_nil, List.dropWhile_nil, List.append_nil] at e2
    simp only [hfp, if_false, e.1, e.2, List.head?_cons, if_true, List.tail_cons, e2.1, e2.2,
      hne, false_and, List.length_map, List.map_append, stodExponent, List.head?_nil]
    simp

/-- A decimal numeral has no hexadecimal prefix. -/
theorem strtodHex_numeral (ip fp : List (Fin 10)) (hip : ip ≠ []) :
    strtodHex false (ip.map digitChar ++ (if fp = [] then [] else '.' :: fp.map digitChar)) =
      none := by
  unfold strtodHex
  have hcond : ¬ ((ip.map digitChar ++ (if fp = [] then [] else '.' :: fp.map digitChar)).head?
        = some '0' ∧
      ((ip.map digitChar ++ (if fp = [] then [] else '.' :: fp.map digitChar)).tail.head?
        = some 'x' ∨
       (ip.map digitChar ++ (if fp = [] then [] else '.' :: fp.map digitChar)).tail.head?
        = some 'X')) := by
    rintro ⟨_, h⟩
    cases ip with
    | nil => exact hip rfl
    | cons a t =>
      cases t with
      | nil =>
        by_cases hfp : fp = []
        · simp [hfp] at h
        · simp [hfp] at h
      | cons b t2 =>
        have hb := digitChar_facts b
        simp only [List.map_cons, List.cons_append, List.tail_cons, List.head?_cons,
          Option.some.injEq] at h
        rcases h with h | h
        · exact hb.2.2.2.2.2.2.1 h
        · exact hb.2.2.2.2.2.2.2 h
  rw [if_neg hcond]

/-- The parser reads a decimal numeral as its digits and the number of fraction digits. -/
theorem strtodDecimal_numeral (ip fp : List (Fin 10)) (hip : ip ≠ []) :
    strtodDecimal (numeralString ip fp) =
      some (Decimal.mk false false (Nat.ofDigits 10 ((ip ++ fp).reverse.map Fin.val))
        fp.length 0) := by
  obtain ⟨a, t, rfl⟩ := List.exists_cons_of_ne_nil hip
  have ha := digitChar_facts a
  have hdrop : List.dropWhile isSpace
      ((a :: t).map digitChar ++ (if fp = [] then [] else '.' :: fp.map digitChar))
      = (a :: t).map digitChar ++ (if fp = [] then [] else '.' :: fp.map digitChar) := by
    simp only [List.map_cons, List.cons_append, List.dropWhile_cons, ha.2.1,
      Bool.false_eq_true, if_false]
  have hhead : ((a :: t).map digitChar ++ (if fp = [] then [] else '.' :: fp.map digitChar)).head?
      = some (digitChar a) := by simp
  have hm : ¬ (some (digitChar a) = some '-') := by
    simp only [Option.some.injEq]; exact ha.2.2.2.1
  have hp : ¬ (some (digitChar a) = some '+') := by
    simp only [Option.some.injEq]; exact ha.2.2.2.2.1
  unfold strtodDecimal numeralString
  simp only [hdrop, hhead, hm, hp, or_self, if_false, decide_False,
    strtodHex_numeral (a :: t) fp hip, strtodDec_numeral (a :: t) fp hip, digitsVal_digits]


/-- `std::stod` reads a decimal numeral in the range of `double` as the number it
denotes. -/
theorem stod_numeral (ip fp : List (Fin 10)) (hip : ip ≠ [])
    (hr : inDoubleRange (numeralValue ip fp : ℝ)) :
    (stod (numeralString ip fp) : Option ℝ) = some (numeralValue ip fp) := by
  have v : (Decimal.mk false false (Nat.ofDigits 10 ((ip ++ fp).reverse.map Fin.val))
      fp.length 0).value = (numeralValue ip fp : ℝ) := by
    simp only [Decimal.value, numeralValue]
    simp
  simp only [stod, strtodDecimal_numeral ip fp hip, v]
  rw [if_pos hr]

/-- `std::stod` throws on a decimal numeral whose value is outside the range of `double`. -/
theorem stod_numeral_none (ip fp : List (Fin 10)) (hip : ip ≠ [])
    (hr : ¬ inDoubleRange (numeralValue ip fp : ℝ)) :
    (stod (numeralString ip fp) : Option ℝ) = none := by
  have v : (Decimal.mk false false (Nat.ofDigits 10 ((ip ++ fp).reverse.map Fin.val))
      fp.length 0).value = (numeralValue ip fp : ℝ) := by
    simp only [Decimal.value, numeralValue]
    simp
  simp only [stod, strtodDecimal_numeral ip fp hip, v]
  rw [if_neg hr]

/-- A run of zero digits has the value `0`. -/
theorem ofDigits_replicate_zero (n : Nat) : Nat.ofDigits 10 (List.replicate n 0) = 0 := by
  induction n with
  | zero => rfl
  | succ k ih => rw [List.replicate_succ, Nat.ofDigits_cons, ih]

/-- The numeral made of the digit `1` and 309 zeros denotes `10 ^ 309`, which is outside
the range of `double`. -/
theorem numeral_ten_pow_309 :
    (numeralValue (1 :: List.replicate 309 0) [] : ℝ) = 10 ^ 309 ∧
    ¬ inDoubleRange ((10 : ℝ) ^ 309) := by
  constructor
  · have hdig : Nat.ofDigits 10
        ((((1 : Fin 10) :: List.replicate 309 0) ++ []).reverse.map Fin.val) = 10 ^ 309 := by
      simp only [List.append_nil, List.reverse_cons, List.reverse_replicate, List.map_append,
        List.map_replicate, List.map_cons, List.map_nil, Nat.ofDigits_append,
        List.length_replicate, Nat.ofDigits_singleton]
      have h0 : ((0 : Fin 10) : ℕ) = 0 := rfl
      have h1 : ((1 : Fin 10) : ℕ) = 1 := rfl
      rw [h0, h1, ofDigits_replicate_zero]
      norm_num
    unfold numeralValue
    rw [hdig]
    norm_num
  · unfold inDoubleRange
    rw [not_or]
    constructor
    · positivity
    · rw [not_and, not_lt]
      intro _
      rw [abs_of_pos (by positivity)]
      norm_num

/-- Decimal bounds on `exp (-1)`. -/
theorem exp_neg_one_bounds :
    (0.367879 : ℝ) < Real.exp (-1) ∧ Real.exp (-1) < 0.3678795 := by
  have hlo := Real.exp_one_gt_d9
  have hhi := Real.exp_one_lt_d9
  have hpos : 0 < Real.exp 1 := Real.exp_pos 1
  rw [Real.exp_neg]
  constructor
  · rw [lt_inv_comm₀ (by norm_num) hpos]
    exact lt_trans hhi (by norm_num)
  · rw [inv_lt_comm₀ hpos (by norm_num)]
    exact lt_trans (by norm_num) hlo

/-- The numeric value is handed to `std::to_string` and `"Mbps"` is appended. -/
theorem AdjustDataRate_append (num suf : String) (x L : ℝ) (hsuf : suf.length = 4)
    (hx : stod num = some x) :
    AdjustDataRate Real.exp (num ++ suf) L =
      some (to_string (x * Real.exp (-L / 10)) ++ "Mbps") := by
  unfold AdjustDataRate
  rw [AdjustDataRateMbps_append Real.exp num suf x L hsuf hx]

/-- `std::to_string(1.0)`. -/
theorem to_string_one : to_string (1 : ℝ) = "1.000000" := by
  have hfl : Int.floor ((1000000 : ℝ)) = 1000000 := by norm_num
  have hr : roundHalfEven (|(1 : ℝ)| * 10 ^ 6) = 1000000 := by
    unfold roundHalfEven
    have e : |(1 : ℝ)| * 10 ^ 6 = 1000000 := by norm_num
    rw [e, hfl]
    norm_num
  unfold to_string
  rw [hr]
  have hneg : ¬ ((1 : ℝ) < 0) := by norm_num
  simp only [hneg, if_false]
  decide

/-- `std::to_string` of `1 * exp (-1)`. -/
theorem to_string_exp_neg_one : to_string (1 * Real.exp (-1)) = "0.367879" := by
  obtain ⟨h1, h2⟩ := exp_neg_one_bounds
  have habs : |1 * Real.exp (-1)| = Real.exp (-1) := by
    rw [one_mul, abs_of_pos (Real.exp_pos _)]
  have hfl : Int.floor (Real.exp (-1) * 10 ^ 6) = 367879 := by
    rw [Int.floor_eq_iff]
    constructor
    · push_cast; linarith
    · push_cast; linarith
  have hr : roundHalfEven (|1 * Real.exp (-1)| * 10 ^ 6) = 367879 := by
    unfold roundHalfEven
    rw [habs, hfl]
    have hlt : Real.exp (-1) * 10 ^ 6 - ((367879 : ℤ) : ℝ) < 1 / 2 := by
      push_cast; linarith
    simp only [hlt, if_true]
  unfold to_string
  rw [hr]
  have hneg : ¬ (1 * Real.exp (-1) < 0) := by
    rw [one_mul]; exact not_lt.2 (le_of_lt (Real.exp_pos _))
  simp only [hneg, if_false]
  decide

/-! ## Auxiliary lemmas on the sanity check -/

/-- A gNB at distance at least `eps` of `up` leaves the state as it is. -/
theorem SanityCheckStep_far {α : Type} [LinearOrderedField α] (sqrt : α → α)
    (rand : Nat → Nat) (up gp : Vector α) (st : Vector α × Nat)
    (h : ¬ distance sqrt up gp < eps) : SanityCheckStep sqrt rand up st gp = st := by
  unfold SanityCheckStep
  simp only [h, if_false]

/-- A gNB closer than `eps` to `up` sets the position to `up` plus the jitter drawn. -/
theorem SanityCheckStep_near {α : Type} [LinearOrderedField α] (sqrt : α → α)
    (rand : Nat → Nat) (up gp : Vector α) (st : Vector α × Nat)
    (h : distance sqrt up gp < eps) :
    SanityCheckStep sqrt rand up st gp =
      (Vector.mk (up.x + (0.5 + (0.5 * ((rand st.2 % 100 : Nat) : α) / 100)))
        (up.y + (0.5 + (0.5 * ((rand st.2 % 100 : Nat) : α) / 100))) up.z, st.2 + 1) := by
  unfold SanityCheckStep
  simp only [h, if_true]

/-- A run of gNBs that are all at distance at least `eps` of `up` changes nothing. -/
theorem SanityCheckStep_foldl_far {α : Type} [LinearOrderedField α] (sqrt : α → α)
    (rand : Nat → Nat) (up : Vector α) (l : List (Vector α)) (st : Vector α × Nat)
    (h : ∀ gp ∈ l, ¬ distance sqrt up gp < eps) :
    l.foldl (SanityCheckStep sqrt rand up) st = st := by
  induction l generalizing st with
  | nil => rfl
  | cons a t ih =>
    rw [List.foldl_cons, SanityCheckStep_far sqrt rand up a st (h a (List.mem_cons_self a t))]
    exact ih st (fun gp hgp => h gp (List.mem_cons_of_mem a hgp))

/-- The last gNB closer than `eps` decides the position: with `l₁` the gNBs before it and
`l₂` those after it, the jitter is the draw number `(SanityCheckUe l₁ up calls).2`. -/
theorem SanityCheckUe_last_near {α : Type} [LinearOrderedField α] (sqrt : α → α)
    (rand : Nat → Nat) (up gp : Vector α) (l₁ l₂ : List (Vector α)) (calls : Nat)
    (hgp : distance sqrt up gp < eps) (h₂ : ∀ g ∈ l₂, ¬ distance sqrt up g < eps) :
    SanityCheckUe sqrt rand (l₁ ++ gp :: l₂) up calls =
      (Vector.mk
        (up.x + (0.5 + (0.5 *
          ((rand (SanityCheckUe sqrt rand l₁ up calls).2 % 100 : Nat) : α) / 100)))
        (up.y + (0.5 + (0.5 *
          ((rand (SanityCheckUe sqrt rand l₁ up calls).2 % 100 : Nat) : α) / 100)))
        up.z,
       (SanityCheckUe sqrt rand l₁ up calls).2 + 1) := by
  unfold SanityCheckUe
  rw [List.foldl_append, List.foldl_cons, SanityCheckStep_near sqrt rand up gp _ hgp,
    SanityCheckStep_foldl_far sqrt rand up l₂ _ h₂]

/-- A list with a gNB closer than `eps` splits at the last such gNB. -/
theorem exists_last_near {α : Type} [LinearOrderedField α] (sqrt : α → α)
    (up : Vector α) (l : List (Vector α)) (h : ∃ gp ∈ l, distance sqrt up gp < eps) :
    ∃ l₁ gp l₂, l = l₁ ++ gp :: l₂ ∧ distance sqrt up gp < eps ∧
      ∀ g ∈ l₂, ¬ distance sqrt up g < eps := by
  induction l with
  | nil =>
    obtain ⟨gp, hmem, _⟩ := h
    exact absurd hmem (List.not_mem_nil gp)
  | cons a t ih =>
    by_cases ht : ∃ gp ∈ t, distance sqrt up gp < eps
    · obtain ⟨l₁, gp, l₂, hl, hgp, h₂⟩ := ih ht
      exact ⟨a :: l₁, gp, l₂, by rw [hl, List.cons_append], hgp, h₂⟩
    · obtain ⟨gp, hmem, hgp⟩ := h
      have ha : distance sqrt up a < eps := by
        rcases List.mem_cons.1 hmem with heq | hin
        · rw [← heq]; exact hgp
        · exact absurd ⟨gp, hin, hgp⟩ ht
      refine ⟨[], a, t, rfl, ha, ?_⟩
      intro g hg hlt
      exact ht ⟨g, hg, hlt⟩

/-- The outer loop with an arbitrary list of positions already produced. -/
theorem SanityCheck_foldl_acc {α : Type} [LinearOrderedField α] (sqrt : α → α)
    (rand : Nat → Nat) (gnbNodes ueNodes : List (Vector α)) (acc : List (Vector α))
    (calls : Nat) :
    ueNodes.foldl (fun (st : List (Vector α) × Nat) up =>
        ((st.1 ++ [(SanityCheckUe sqrt rand gnbNodes up st.2).1],
          (SanityCheckUe sqrt rand gnbNodes up st.2).2) : List (Vector α) × Nat))
        (acc, calls) =
      (acc ++ (SanityCheck sqrt rand gnbNodes ueNodes calls).1,
        (SanityCheck sqrt rand gnbNodes ueNodes calls).2) := by
  induction ueNodes generalizing acc calls with
  | nil => simp [SanityCheck]
  | cons up t ih =>
    have e : SanityCheck sqrt rand gnbNodes (up :: t) calls =
        t.foldl (fun (st : List (Vector α) × Nat) up =>
          ((st.1 ++ [(SanityCheckUe sqrt rand gnbNodes up st.2).1],
            (SanityCheckUe sqrt rand gnbNodes up st.2).2) : List (Vector α) × Nat))
          ([(SanityCheckUe sqrt rand gnbNodes up calls).1],
            (SanityCheckUe sqrt rand gnbNodes up calls).2) := by
      simp [SanityCheck]
    rw [e, List.foldl_cons, ih, ih]
    simp

/-- The pass on a non-empty list of UEs: the first UE, then the rest with the draws
that remain. -/
theorem SanityCheck_cons {α : Type} [LinearOrderedField α] (sqrt : α → α)
    (rand : Nat → Nat) (gnbNodes t : List (Vector α)) (up : Vector α) (calls : Nat) :
    SanityCheck sqrt rand gnbNodes (up :: t) calls =
      ((SanityCheckUe sqrt rand gnbNodes up calls).1 ::
          (SanityCheck sqrt rand gnbNodes t (SanityCheckUe sqrt rand gnbNodes up calls).2).1,
        (SanityCheck sqrt rand gnbNodes t (SanityCheckUe sqrt rand gnbNodes up calls).2).2) := by
  have e : SanityCheck sqrt rand gnbNodes (up :: t) calls =
      t.foldl (fun (st : List (Vector α) × Nat) up =>
        ((st.1 ++ [(SanityCheckUe sqrt rand gnbNodes up st.2).1],
          (SanityCheckUe sqrt rand gnbNodes up st.2).2) : List (Vector α) × Nat))
        ([(SanityCheckUe sqrt rand gnbNodes up calls).1],
          (SanityCheckUe sqrt rand gnbNodes up calls).2) := by
    simp [SanityCheck]
  rw [e, SanityCheck_foldl_acc]
  simp

/-- The pass on the empty list of UEs. -/
theorem SanityCheck_nil {α : Type} [LinearOrderedField α] (sqrt : α → α)
    (rand : Nat → Nat) (gnbNodes : List (Vector α)) (calls : Nat) :
    SanityCheck sqrt rand gnbNodes [] calls = ([], calls) := rfl

/-- A point is at distance `0` of itself, which is below `eps`. -/
theorem distance_self_lt_eps (p : Vector ℝ) : distance Real.sqrt p p < eps := by
  simp only [distance, sub_self, mul_zero, add_zero, Real.sqrt_zero, eps]
  norm_num

/-- The decimal logarithm of `100`. -/
theorem logb_ten_hundred : Real.logb 10 100 = 2 := by
  have h : (100 : ℝ) = 10 ^ (2 : ℕ) := by norm_num
  rw [h, Real.logb_pow, Real.logb_self_eq_one (by norm_num)]
  norm_num

/-- A lower bound `p / q` on a decimal logarithm, from `10 ^ p < x ^ q`. -/
theorem lt_logb_ten_of_pow_lt (x : ℝ) (p q : ℕ) (hq : 0 < q)
    (h : (10 : ℝ) ^ p < x ^ q) : (p : ℝ) / q < Real.logb 10 x := by
  have h1 : Real.logb 10 ((10 : ℝ) ^ p) < Real.logb 10 (x ^ q) :=
    Real.logb_lt_logb (by norm_num) (by positivity) h
  rw [Real.logb_pow, Real.logb_pow, Real.logb_self_eq_one (by norm_num), mul_one] at h1
  have hq' : (0 : ℝ) < q := by exact_mod_cast hq
  rw [div_lt_iff₀ hq']
  linarith

/-- An upper bound `p / q` on a decimal logarithm, from `x ^ q < 10 ^ p`. -/
theorem logb_ten_lt_of_pow_lt (x : ℝ) (p q : ℕ) (hq : 0 < q) (hx : 0 < x)
    (h : x ^ q < (10 : ℝ) ^ p) : Real.logb 10 x < (p : ℝ) / q := by
  have h1 : Real.logb 10 (x ^ q) < Real.logb 10 ((10 : ℝ) ^ p) :=
    Real.logb_lt_logb (by norm_num) (by positivity) h
  rw [Real.logb_pow, Real.logb_pow, Real.logb_self_eq_one (by norm_num), mul_one] at h1
  have hq' : (0 : ℝ) < q := by exact_mod_cast hq
  rw [lt_div_iff₀ hq']
  linarith

/-- Bounds on the decimal logarithm of `28000`. -/
theorem logb_ten_28000 : (4.445 : ℝ) < Real.logb 10 28000 ∧ Real.logb 10 28000 < 4.45 := by
  constructor
  · have h := lt_logb_ten_of_pow_lt 28000 889 200 (by norm_num) (by norm_num)
    have e : ((889 : ℕ) : ℝ) / ((200 : ℕ) : ℝ) = 4.445 := by norm_num
    rw [e] at h
    exact h
  · have h := logb_ten_lt_of_pow_lt 28000 89 20 (by norm_num) (by norm_num) (by norm_num)
    have e : ((89 : ℕ) : ℝ) / ((20 : ℕ) : ℝ) = 4.45 := by norm_num
    rw [e] at h
    exact h

/-- The tenth root of ten, to four decimals. -/
theorem ten_rpow_tenth_bounds :
    (1.2589 : ℝ) < (10 : ℝ) ^ ((1 : ℝ) / 10) ∧ (10 : ℝ) ^ ((1 : ℝ) / 10) < 1.259 := by
  have hnn : (0 : ℝ) ≤ (10 : ℝ) ^ ((1 : ℝ) / 10) := Real.rpow_nonneg (by norm_num) _
  have hpow : ((10 : ℝ) ^ ((1 : ℝ) / 10)) ^ (10 : ℕ) = 10 := by
    rw [← Real.rpow_natCast, ← Real.rpow_mul (by norm_num)]
    norm_num
  constructor
  · by_contra hle
    rw [not_lt] at hle
    have h := pow_le_pow_left₀ hnn hle 10
    rw [hpow] at h
    norm_num at h
  · by_contra hle
    rw [not_lt] at hle
    have h := pow_le_pow_left₀ (by norm_num : (0 : ℝ) ≤ 1.259) hle 10
    rw [hpow] at h
    norm_num at h

/-- The adapted rate of a positive nominal rate is above it for a negative loss and
below it for a positive loss. -/
theorem mul_exp_neg_div_ten (x L : ℝ) (hpos : 0 < x) :
    (L < 0 → x < x * Real.exp (-L / 10)) ∧ (0 < L → x * Real.exp (-L / 10) < x) := by
  constructor
  · intro hL
    have h0 : 0 < -L / 10 := by linarith
    have h1 : 1 < Real.exp (-L / 10) := by
      have h := Real.exp_lt_exp.2 h0
      rwa [Real.exp_zero] at h
    calc x = x * 1 := (mul_one x).symm
      _ < x * Real.exp (-L / 10) := mul_lt_mul_of_pos_left h1 hpos
  · intro hL
    have h0 : -L / 10 < 0 := by linarith
    have h1 : Real.exp (-L / 10) < 1 := by
      have h := Real.exp_lt_exp.2 h0
      rwa [Real.exp_zero] at h
    calc x * Real.exp (-L / 10) < x * 1 := mul_lt_mul_of_pos_left h1 hpos
      _ = x := mul_one x

/-- The distance of two points that differ by `(± isd / 2, isd * sqrt 3 / 2, 0)`. -/
theorem distance_hex_step (x y z isd e : ℝ) (he : e = isd / 2 ∨ e = -(isd / 2)) :
    distance Real.sqrt (Vector.mk x y z) (Vector.mk (x + e) (y + isd * Real.sqrt 3 / 2) z)
      = |isd| := by
  have h3 : Real.sqrt 3 * Real.sqrt 3 = 3 := Real.mul_self_sqrt (by norm_num)
  have hsum : (x - (x + e)) * (x - (x + e))
      + (y - (y + isd * Real.sqrt 3 / 2)) * (y - (y + isd * Real.sqrt 3 / 2))
      + (z - z) * (z - z) = isd ^ 2 := by
    have hee : e * e = isd * isd / 4 := by
      rcases he with h | h <;> rw [h] <;> ring
    have : (x - (x + e)) * (x - (x + e))
      + (y - (y + isd * Real.sqrt 3 / 2)) * (y - (y + isd * Real.sqrt 3 / 2))
      + (z - z) * (z - z) = e * e + isd * isd * (Real.sqrt 3 * Real.sqrt 3) / 4 := by ring
    rw [this, hee, h3]
    ring
  simp only [distance]
  rw [hsum, Real.sqrt_sq_eq_abs]

/-- The pass returns one position per UE. -/
theorem SanityCheck_length {α : Type} [LinearOrderedField α] (sqrt : α → α)
    (rand : Nat → Nat) (gnbNodes ueNodes : List (Vector α)) (calls : Nat) :
    (SanityCheck sqrt rand gnbNodes ueNodes calls).1.length = ueNodes.length := by
  induction ueNodes generalizing calls with
  | nil => rfl
  | cons up t ih =>
    rw [SanityCheck_cons]
    simp only [List.length_cons, ih]

/-- The position of UE `i` after the pass is the result of its inner loop, started with
the number of draws that the UEs before it have used. -/
theorem SanityCheck_getElem {α : Type} [LinearOrderedField α] (sqrt : α → α)
    (rand : Nat → Nat) (gnbNodes ueNodes : List (Vector α)) (calls i : Nat) (up : Vector α)
    (hi : ueNodes[i]? = some up) :
    (SanityCheck sqrt rand gnbNodes ueNodes calls).1[i]? =
      some (SanityCheckUe sqrt rand gnbNodes up
        (SanityCheck sqrt rand gnbNodes (ueNodes.take i) calls).2).1 := by
  induction ueNodes generalizing calls i with
  | nil => simp at hi
  | cons a t ih =>
    rw [SanityCheck_cons]
    cases i with
    | zero =>
      simp only [List.getElem?_cons_zero, Option.some.injEq] at hi
      subst hi
      simp only [List.getElem?_cons_zero, List.take_zero, SanityCheck_nil]
    | succ j =>
      simp only [List.getElem?_cons_succ] at hi
      simp only [List.getElem?_cons_succ, List.take_succ_cons]
      rw [SanityCheck_cons]
      exact ih _ j hi

/-- The jitter of the source, `0.5 + 0.5 * k / 100` with `k = std::rand() % 100`, is
`0.5 + 0.005 * k`, at least `0.5` and below `1`. -/
theorem jitter_bounds (n : Nat) :
    n % 100 ≤ 99 ∧
    (0.5 + (0.5 * ((n % 100 : Nat) : ℝ) / 100) : ℝ) = 0.5 + 0.005 * ((n % 100 : Nat) : ℝ) ∧
    (0.5 : ℝ) ≤ 0.5 + 0.005 * ((n % 100 : Nat) : ℝ) ∧
    (0.5 + 0.005 * ((n % 100 : Nat) : ℝ) : ℝ) < 1 := by
  have hk : n % 100 ≤ 99 := by omega
  have hk0 : (0 : ℝ) ≤ ((n % 100 : Nat) : ℝ) := Nat.cast_nonneg _
  have hk1 : ((n % 100 : Nat) : ℝ) ≤ 99 := by exact_mod_cast hk
  refine ⟨hk, by ring, by linarith, by linarith⟩

/-! ## Auxiliary lemmas on the loss functions with non-finite values -/

/-- A numeric literal as a `double`. -/
theorem Double.ofNat_eq {α : Type} [LinearOrderedField α] (n : Nat) :
    (OfNat.ofNat n : Double α) = Double.fin (n : α) := rfl

/-- The operator `*` is `Double.mul`. -/
theorem Double.mul_eq {α : Type} [LinearOrderedField α] (a b : Double α) :
    a * b = Double.mul a b := rfl

/-- The operator `-` is `Double.sub`. -/
theorem Double.sub_eq {α : Type} [LinearOrderedField α] (a b : Double α) :
    a - b = Double.sub a b := rfl

/-- The operator `+` is `Double.add`. -/
theorem Double.add_eq {α : Type} [LinearOrderedField α] (a b : Double α) :
    a + b = Double.add a b := rfl

/-- The operator `/` is `Double.div`. -/
theorem Double.div_eq {α : Type} [LinearOrderedField α] (a b : Double α) :
    a / b = Double.div a b := rfl

/-- Both loss functions at a distance `d ≤ 0`: `-inf` at `0`, NaN below. -/
theorem loss_nonpositive (log10 : ℝ → ℝ) (d : ℝ) (hd : d ≤ 0) :
    CalculateVlcLoss (Double.log10 log10) (Double.fin d)
      = (if d = 0 then Double.negInf else Double.nan) ∧
    CalculateOwcLoss (Double.log10 log10) (Double.fin d)
      = (if d = 0 then Double.negInf else Double.nan) := by
  have h1 : ¬ 0 < d := not_lt.2 hd
  constructor
  · simp only [CalculateVlcLoss, Double.log10, h1, if_false, Double.ofNat_eq, Double.mul_eq,
      Double.sub_eq, Double.mul]
    split_ifs with h0
    · simp [Double.mul, Double.scaleInf, Double.sub, Double.neg, Double.add]
    · simp [Double.mul, Double.sub, Double.neg, Double.add]
  · simp only [CalculateOwcLoss, Double.ofNat_eq, Double.mul_eq, Double.add_eq, Double.div_eq,
      Double.mul, Double.div]
    simp [Double.log10, h1]
    split_ifs with h0
    · simp [Double.mul, Double.scaleInf, Double.sub, Double.neg, Double.add]
    · simp [Double.mul, Double.sub, Double.neg, Double.add]

/-- Both loss functions at a distance `d > 0`, computed on `double`s: the finite values
of the real formulas. -/
theorem loss_positive (log10 : ℝ → ℝ) (d : ℝ) (hd : 0 < d) :
    CalculateVlcLoss (Double.log10 log10) (Double.fin d)
      = Double.fin (10 * log10 d - 1) ∧
    CalculateOwcLoss (Double.log10 log10) (Double.fin d)
      = Double.fin (1 + 20 * log10 d) := by
  constructor
  · simp only [CalculateVlcLoss, Double.log10, hd, if_true, Double.ofNat_eq, Double.mul_eq,
      Double.sub_eq, Double.mul, Double.sub, Double.neg, Double.add]
    norm_num
    ring
  · have h1 : (1 : ℝ) ≠ 0 := one_ne_zero
    simp only [CalculateOwcLoss, Double.ofNat_eq, Double.mul_eq, Double.add_eq, Double.div_eq,
      Double.div, Nat.cast_one, h1, if_false, div_one, Double.log10, hd, if_true, Double.mul,
      Double.add]
    congr 1
    push_cast
    ring

/-! ## Auxiliary lemmas on separated transmitter layouts -/

/-- C1: `MakeHexGrid rows cols isd z` returns exactly `rows * cols` positions, for all
row and column counts (in particular all 32-bit ones) and all `isd`, `z`; it returns
the empty sequence when `rows = 0` and when `cols = 0`. -/
theorem MakeHexGrid_length (rows cols : Nat) (isd z : ℝ) :
    (MakeHexGrid Real.sqrt rows cols isd z).length = rows * cols ∧
    MakeHexGrid Real.sqrt 0 cols isd z = [] ∧
    MakeHexGrid Real.sqrt rows 0 isd z = [] := by
  refine ⟨?_, ?_, ?_⟩
  · rw [MakeHexGrid_eq_flatMap, length_flatMap_range_map]
  · simp [MakeHexGrid]
  · apply List.eq_nil_of_length_eq_zero
    rw [MakeHexGrid_eq_flatMap, length_flatMap_range_map]
    simp

/-- C2: for `r < rows` and `c < cols`, the element at index `r * cols + c` of
`MakeHexGrid rows cols isd z` is the point
`(c * isd + (isd / 2 if r is odd, else 0), r * isd * sqrt 3 / 2, z)`: row-major order,
odd rows shifted by `isd / 2`, constant height.  For `rows = 2, cols = 2, isd = 600,
z = 25` the grid is `(0,0,25), (600,0,25), (300, 300*sqrt 3, 25), (900, 300*sqrt 3, 25)`
and `300 * sqrt 3` is within `0.001` of `519.615`. -/
theorem MakeHexGrid_row_major (rows cols r c : Nat) (isd z : ℝ)
    (hr : r < rows) (hc : c < cols) :
    (MakeHexGrid Real.sqrt rows cols isd z)[r * cols + c]? =
      some (Vector.mk ((c : ℝ) * isd + (if r % 2 = 1 then isd / 2 else 0))
        ((r : ℝ) * isd * Real.sqrt 3 / 2) z) ∧
    MakeHexGrid Real.sqrt 2 2 600 25 =
      [Vector.mk 0 0 25, Vector.mk 600 0 25,
       Vector.mk 300 (300 * Real.sqrt 3) 25, Vector.mk 900 (300 * Real.sqrt 3) 25] ∧
    |300 * Real.sqrt 3 - 519.615| < 0.001 := by
  refine ⟨?_, ?_, ?_⟩
  · rw [MakeHexGrid_site Real.sqrt rows cols r c isd z hr hc]
    have hodd : (r % 2 ≠ 0) ↔ (r % 2 = 1) := by omega
    simp only [hodd]
    congr 2
    ring
  · rw [MakeHexGrid_eq_flatMap]
    simp only [List.range_succ, List.range_zero, List.nil_append, List.flatMap_cons,
      List.flatMap_nil, List.map_cons, List.map_nil, List.singleton_append, List.cons_append,
      List.append_nil]
    have h3 : (600 : ℝ) * Real.sqrt 3 / 2 = 300 * Real.sqrt 3 := by ring
    norm_num [h3]
  · rw [abs_lt]
    obtain ⟨h1, h2⟩ := sqrt3_bounds
    constructor <;> linarith

/-- Witness for C2: row 1, column 1 of the 2 x 2 grid with `isd = 600`, `z = 25`. -/
theorem MakeHexGrid_row_major_witness :
    (MakeHexGrid Real.sqrt 2 2 600 25)[1 * 2 + 1]? =
      some (Vector.mk (((1 : Nat) : ℝ) * 600 + (if 1 % 2 = 1 then 600 / 2 else 0))
        (((1 : Nat) : ℝ) * 600 * Real.sqrt 3 / 2) 25) :=
  (MakeHexGrid_row_major 2 2 1 1 600 25 (by decide) (by decide)).1

/-- C3, as stated, fails: in the one-row grid with three columns and `isd = 600` the
sites of columns 0 and 2 are distinct sites of the same row at distance `1200`, not
`600`. -/
theorem same_row_distance_counterexample :
    ∃ p q : Vector ℝ, (MakeHexGrid Real.sqrt 1 3 600 25)[0 * 3 + 0]? = some p ∧
      (MakeHexGrid Real.sqrt 1 3 600 25)[0 * 3 + 2]? = some q ∧ p ≠ q ∧
      distance Real.sqrt p q = 1200 ∧ distance Real.sqrt p q ≠ 600 := by
  refine ⟨Vector.mk 0 0 25, Vector.mk 1200 0 25, ?_, ?_, ?_, ?_, ?_⟩
  · rw [MakeHexGrid_site Real.sqrt 1 3 0 0 600 25 (by decide) (by decide)]; simp
  · rw [MakeHexGrid_site Real.sqrt 1 3 0 2 600 25 (by decide) (by decide)]; norm_num
  · intro h
    have hx := congrArg Vector.x h
    norm_num at hx
  · rw [distance_same_yz]; norm_num
  · rw [distance_same_yz]; norm_num

/-- C3, amended: for `isd > 0`, the sites of one row `r` at columns `c₁` and `c₂` are at
Euclidean distance exactly `|c₁ - c₂| * isd`; in particular horizontally adjacent sites
(`c₂ = c₁ + 1`) are at distance exactly `isd`. -/
theorem same_row_distance (rows cols r c₁ c₂ : Nat) (isd z : ℝ) (hisd : 0 < isd)
    (hr : r < rows) (h₁ : c₁ < cols) (h₂ : c₂ < cols) :
    ∃ p q : Vector ℝ, (MakeHexGrid Real.sqrt rows cols isd z)[r * cols + c₁]? = some p ∧
      (MakeHexGrid Real.sqrt rows cols isd z)[r * cols + c₂]? = some q ∧
      distance Real.sqrt p q = |(c₁ : ℝ) - (c₂ : ℝ)| * isd ∧
      (c₂ = c₁ + 1 → distance Real.sqrt p q = isd) := by
  refine ⟨_, _, MakeHexGrid_site Real.sqrt rows cols r c₁ isd z hr h₁,
    MakeHexGrid_site Real.sqrt rows cols r c₂ isd z hr h₂, ?_, ?_⟩
  · rw [distance_same_yz]
    have : (c₁ : ℝ) * isd + (if r % 2 ≠ 0 then isd / 2 else 0)
        - ((c₂ : ℝ) * isd + (if r % 2 ≠ 0 then isd / 2 else 0)) = ((c₁ : ℝ) - c₂) * isd := by
      ring
    rw [this, abs_mul, abs_of_pos hisd]
  · intro h
    rw [distance_same_yz]
    subst h
    have : (c₁ : ℝ) * isd + (if r % 2 ≠ 0 then isd / 2 else 0)
        - (((c₁ + 1 : Nat) : ℝ) * isd + (if r % 2 ≠ 0 then isd / 2 else 0)) = - isd := by
      push_cast; ring
    rw [this, abs_neg, abs_of_pos hisd]

/-- Witness for the amended C3: columns 0 and 2 of row 1 of the 2 x 3 grid. -/
theorem same_row_distance_witness :
    ∃ p q : Vector ℝ, (MakeHexGrid Real.sqrt 2 3 600 25)[1 * 3 + 0]? = some p ∧
      (MakeHexGrid Real.sqrt 2 3 600 25)[1 * 3 + 2]? = some q ∧
      distance Real.sqrt p q = |((0 : Nat) : ℝ) - ((2 : Nat) : ℝ)| * 600 ∧
      (2 = 0 + 1 → distance Real.sqrt p q = 600) :=
  same_row_distance 2 3 1 0 2 600 25 (by norm_num) (by decide) (by decide) (by decide)

/-- C4: for every list of sites, `CreateTriSectorEnbs` emits exactly three sectors per
site (`3 * sites.length` in total), in site order: the sectors at indices `3 * i`,
`3 * i + 1`, `3 * i + 2` belong to site `i` and carry the antenna orientations `0`, `120`
and `240` degrees in that order.  Hence two different sectors of one site never share
an orientation, and consecutive orientations are `360 / 3` degrees apart. -/
theorem CreateTriSectorEnbs_tri_sector (sites : List (Vector ℝ)) :
    (CreateTriSectorEnbs sites []).length = 3 * sites.length ∧
    (∀ (i : Nat) (p : Vector ℝ), sites[i]? = some p →
      (CreateTriSectorEnbs sites [])[3 * i]? = some (Sector.mk p 0) ∧
      (CreateTriSectorEnbs sites [])[3 * i + 1]? = some (Sector.mk p 120) ∧
      (CreateTriSectorEnbs sites [])[3 * i + 2]? = some (Sector.mk p 240)) ∧
    (∀ (i s t : Nat) (a b : Sector ℝ), s < 3 → t < 3 → s ≠ t →
      (CreateTriSectorEnbs sites [])[3 * i + s]? = some a →
      (CreateTriSectorEnbs sites [])[3 * i + t]? = some b →
      a.orientation ≠ b.orientation) ∧
    (∀ (i s : Nat) (a b : Sector ℝ), s + 1 < 3 →
      (CreateTriSectorEnbs sites [])[3 * i + s]? = some a →
      (CreateTriSectorEnbs sites [])[3 * i + (s + 1)]? = some b →
      b.orientation - a.orientation = 360 / 3) := by
  have hlen : (CreateTriSectorEnbs sites []).length = 3 * sites.length := by
    rw [CreateTriSectorEnbs_eq, List.nil_append, length_flatMap_three]
  have hidx : ∀ (i : Nat) (p : Vector ℝ), sites[i]? = some p →
      (CreateTriSectorEnbs sites [])[3 * i]? = some (Sector.mk p 0) ∧
      (CreateTriSectorEnbs sites [])[3 * i + 1]? = some (Sector.mk p 120) ∧
      (CreateTriSectorEnbs sites [])[3 * i + 2]? = some (Sector.mk p 240) := by
    intro i p hp
    rw [CreateTriSectorEnbs_eq, List.nil_append]
    exact getElem?_flatMap_three _ _ _ sites i p hp
  refine ⟨hlen, hidx, ?_, ?_⟩
  · intro i s t a b hs ht hst ha hb
    obtain ⟨p, hp⟩ := site_of_sector_index sites _ hlen i s a ha
    obtain ⟨h0, h1, h2⟩ := hidx i p hp
    interval_cases s <;> interval_cases t <;>
      simp_all only [Nat.add_zero, Option.some.injEq, ne_eq, not_true_eq_false] <;>
      subst ha <;> subst hb <;> norm_num
  · intro i s a b hs ha hb
    obtain ⟨p, hp⟩ := site_of_sector_index sites _ hlen i s a ha
    obtain ⟨h0, h1, h2⟩ := hidx i p hp
    have hs2 : s < 2 := by omega
    interval_cases s <;>
      simp_all only [Nat.add_zero, Nat.zero_add, Nat.reduceAdd, Option.some.injEq] <;>
      subst ha <;> subst hb <;> norm_num

/-- Witness for C4: two sites; the sectors of the second one. -/
theorem CreateTriSectorEnbs_tri_sector_witness :
    (CreateTriSectorEnbs [Vector.mk (0 : ℝ) 0 25, Vector.mk 600 0 25] [])[3 * 1]?
        = some (Sector.mk (Vector.mk 600 0 25) 0) ∧
    (CreateTriSectorEnbs [Vector.mk (0 : ℝ) 0 25, Vector.mk 600 0 25] [])[3 * 1 + 1]?
        = some (Sector.mk (Vector.mk 600 0 25) 120) ∧
    (CreateTriSectorEnbs [Vector.mk (0 : ℝ) 0 25, Vector.mk 600 0 25] [])[3 * 1 + 2]?
        = some (Sector.mk (Vector.mk 600 0 25) 240) :=
  (CreateTriSectorEnbs_tri_sector [Vector.mk (0 : ℝ) 0 25, Vector.mk 600 0 25]).2.1 1
    (Vector.mk 600 0 25) (by simp)

/-- C5: let `p` be the position of site `i`.  With `rho` the offset radius of
`CreateTriSectorGnbs` (`1` in `nr-6g-urbano.cc`, `3` in `nr-6g-urbano-lite.cc`), the
three sector positions of the site are `p + rho * (cos b, sin b, 0)` for `b = 0, 120,
240` degrees in that order, that is `p + (rho, 0, 0)`, `p + (-rho/2, rho*sqrt 3/2, 0)`
and `p + (-rho/2, -rho*sqrt 3/2, 0)`.  In the zero-offset profile
(`CreateTriSectorEnbs`) every sector position of the site is `p`. -/
theorem CreateTriSector_positions (sites : List (Vector ℝ)) (i : Nat) (p : Vector ℝ)
    (hp : sites[i]? = some p) :
    (∀ (rho : ℝ) (out : List (Vector ℝ)),
      ((rho = 1 ∧ out = Nr.CreateTriSectorGnbs Real.cos Real.sin Real.pi sites []) ∨
       (rho = 3 ∧ out = NrLite.CreateTriSectorGnbs Real.cos Real.sin Real.pi sites [])) →
      (∀ s : Nat, s < 3 → out[3 * i + s]? = some (Vector.mk
          (p.x + rho * Real.cos ((s : ℝ) * 120 * Real.pi / 180))
          (p.y + rho * Real.sin ((s : ℝ) * 120 * Real.pi / 180)) (p.z + 0))) ∧
      out[3 * i]? = some (Vector.mk (p.x + rho) (p.y + 0) (p.z + 0)) ∧
      out[3 * i + 1]? =
        some (Vector.mk (p.x + -rho / 2) (p.y + rho * Real.sqrt 3 / 2) (p.z + 0)) ∧
      out[3 * i + 2]? =
        some (Vector.mk (p.x + -rho / 2) (p.y + -rho * Real.sqrt 3 / 2) (p.z + 0))) ∧
    (∀ s : Nat, s < 3 →
      ((CreateTriSectorEnbs sites [])[3 * i + s]?).map Sector.position = some p) := by
  have key : ∀ rho : ℝ,
      (∀ s : Nat, s < 3 →
        (CreateTriSectorGnbsWith Real.cos Real.sin Real.pi rho sites [])[3 * i + s]? =
          some (Vector.mk
            (p.x + rho * Real.cos ((s : ℝ) * 120 * Real.pi / 180))
            (p.y + rho * Real.sin ((s : ℝ) * 120 * Real.pi / 180)) (p.z + 0))) := by
    intro rho s hs
    rw [CreateTriSectorGnbsWith_eq, List.nil_append]
    obtain ⟨h0, h1, h2⟩ := getElem?_flatMap_three
      (fun p : Vector ℝ => Vector.mk (p.x + rho * Real.cos (((0 : Nat) : ℝ) * 120 * Real.pi / 180))
            (p.y + rho * Real.sin (((0 : Nat) : ℝ) * 120 * Real.pi / 180)) p.z)
      (fun p : Vector ℝ => Vector.mk (p.x + rho * Real.cos (((1 : Nat) : ℝ) * 120 * Real.pi / 180))
            (p.y + rho * Real.sin (((1 : Nat) : ℝ) * 120 * Real.pi / 180)) p.z)
      (fun p : Vector ℝ => Vector.mk (p.x + rho * Real.cos (((2 : Nat) : ℝ) * 120 * Real.pi / 180))
            (p.y + rho * Real.sin (((2 : Nat) : ℝ) * 120 * Real.pi / 180)) p.z)
      sites i p hp
    interval_cases s
    · rw [Nat.add_zero, h0, add_zero]
    · rw [h1, add_zero]
    · rw [h2, add_zero]
  have expl : ∀ rho : ℝ,
      (CreateTriSectorGnbsWith Real.cos Real.sin Real.pi rho sites [])[3 * i]? =
        some (Vector.mk (p.x + rho) (p.y + 0) (p.z + 0)) ∧
      (CreateTriSectorGnbsWith Real.cos Real.sin Real.pi rho sites [])[3 * i + 1]? =
        some (Vector.mk (p.x + -rho / 2) (p.y + rho * Real.sqrt 3 / 2) (p.z + 0)) ∧
      (CreateTriSectorGnbsWith Real.cos Real.sin Real.pi rho sites [])[3 * i + 2]? =
        some (Vector.mk (p.x + -rho / 2) (p.y + -rho * Real.sqrt 3 / 2) (p.z + 0)) := by
    intro rho
    obtain ⟨c0, s0, c1, s1, c2, s2⟩ := sector_cos_sin
    have k0 := key rho 0 (by decide)
    have k1 := key rho 1 (by decide)
    have k2 := key rho 2 (by decide)
    rw [c0, s0] at k0
    rw [c1, s1] at k1
    rw [c2, s2] at k2
    refine ⟨?_, ?_, ?_⟩
    · rw [Nat.add_zero] at k0
      rw [k0]; congr 2 <;> ring
    · rw [k1]; congr 2 <;> ring
    · rw [k2]; congr 2 <;> ring
  constructor
  · intro rho out hout
    rcases hout with ⟨hrho, hout⟩ | ⟨hrho, hout⟩
    · subst hrho; subst hout
      exact ⟨key 1, expl 1⟩
    · subst hrho; subst hout
      exact ⟨key 3, expl 3⟩
  · intro s hs
    obtain ⟨h0, h1, h2⟩ :=
      getElem?_flatMap_three (fun p : Vector ℝ => Sector.mk p (0 : ℝ))
        (fun p => Sector.mk p 120) (fun p => Sector.mk p 240) sites i p hp
    rw [CreateTriSectorEnbs_eq, List.nil_append]
    interval_cases s
    · rw [Nat.add_zero, h0]; rfl
    · rw [h1]; rfl
    · rw [h2]; rfl

/-- Witness for C5: the sectors of the second of two sites, in `nr-6g-urbano.cc`. -/
theorem CreateTriSector_positions_witness :
    (Nr.CreateTriSectorGnbs Real.cos Real.sin Real.pi
        [Vector.mk (0 : ℝ) 0 25, Vector.mk 600 0 25] [])[3 * 1 + 1]? =
      some (Vector.mk (600 + -1 / 2) (0 + 1 * Real.sqrt 3 / 2) (25 + 0)) :=
  ((CreateTriSector_positions [Vector.mk (0 : ℝ) 0 25, Vector.mk 600 0 25] 1
    (Vector.mk 600 0 25) (by simp)).1 1 _ (Or.inl ⟨rfl, rfl⟩)).2.2.1

/-- C6: for every distance `d > 0`, `CalculateVlcLoss d = 10 * n * log10 d - referenceLoss`
with `n = 1` and `referenceLoss = 1`, that is `10 * log10 d - 1`, and
`CalculateOwcLoss d = referenceLoss + 10 * n * log10 (d / d0)` with `n = 2`, `d0 = 1` and
`referenceLoss = 1`, that is `1 + 20 * log10 d`. -/
theorem optical_loss_formulas (d : ℝ) (hd : 0 < d) :
    CalculateVlcLoss (Real.logb 10) d = 10 * 1 * Real.logb 10 d - 1 ∧
    CalculateVlcLoss (Real.logb 10) d = 10 * Real.logb 10 d - 1 ∧
    CalculateOwcLoss (Real.logb 10) d = 1 + 10 * 2 * Real.logb 10 (d / 1) ∧
    CalculateOwcLoss (Real.logb 10) d = 1 + 20 * Real.logb 10 d := by
  have _hd := hd
  refine ⟨rfl, ?_, rfl, ?_⟩
  · simp only [CalculateVlcLoss]; ring
  · simp only [CalculateOwcLoss, div_one]; ring

/-- Witness for C6: the distance `20` m used by `main`. -/
theorem optical_loss_formulas_witness :
    CalculateVlcLoss (Real.logb 10) 20 = 10 * Real.logb 10 20 - 1 ∧
    CalculateOwcLoss (Real.logb 10) 20 = 1 + 20 * Real.logb 10 20 :=
  ⟨(optical_loss_formulas 20 (by norm_num)).2.1, (optical_loss_formulas 20 (by norm_num)).2.2.2⟩

/-- C7, as stated, fails: `"1e999Mbps"` is a decimal number followed by `"Mbps"`, but its
value `10 ^ 999` is outside the range of `double`, so `std::stod` throws
`std::out_of_range` and `AdjustDataRate` produces no value.  The same happens without
exponent notation, for the digit `1` followed by 309 zeros and `"Mbps"`. -/
theorem AdjustDataRate_value_counterexample :
    strtodDecimal "1e999" = some (Decimal.mk false false 1 0 999) ∧
    (Decimal.mk false false 1 0 999).value = (10 : ℝ) ^ (999 : ℤ) ∧
    ¬ inDoubleRange ((10 : ℝ) ^ (999 : ℤ)) ∧
    AdjustDataRateMbps Real.exp "1e999Mbps" 10 = none ∧
    AdjustDataRate Real.exp "1e999Mbps" 10 = none ∧
    (numeralValue (1 :: List.replicate 309 0) [] : ℝ) = 10 ^ 309 ∧
    AdjustDataRateMbps Real.exp (numeralString (1 :: List.replicate 309 0) [] ++ "Mbps") 10
      = none := by
  have hbig : AdjustDataRateMbps Real.exp
      (numeralString (1 :: List.replicate 309 0) [] ++ "Mbps") 10 = none := by
    unfold AdjustDataRateMbps
    rw [substr_strip_suffix _ "Mbps" (by decide),
      stod_numeral_none _ _ (List.cons_ne_nil _ _)
        (by rw [numeral_ten_pow_309.1]; exact numeral_ten_pow_309.2)]
  have hv : AdjustDataRateMbps Real.exp ("1e999" ++ "Mbps") 10 = none := by
    unfold AdjustDataRateMbps
    rw [substr_strip_suffix "1e999" "Mbps" (by decide), stod_out_of_range]
  have hs : AdjustDataRate Real.exp ("1e999" ++ "Mbps") 10 = none := by
    unfold AdjustDataRate
    rw [hv]
  refine ⟨by decide, ?_, inDoubleRange_examples.2.2, hv, hs, numeral_ten_pow_309.1, hbig⟩
  simp only [Decimal.value]; norm_num

/-- C7, amended: for a rate string made of a decimal numeral (digits `ip`, optionally a
point and digits `fp`) whose value `x` is in the range of `double`, followed by the four
characters `"Mbps"`, and every loss `L`, the numeric value computed by `AdjustDataRate`
is `x * exp (-L / 10)`, and the returned string is that value printed, followed by
`"Mbps"`.  For the input `("1Mbps", 10)` the value is `1 * exp (-1)`, which is `0.3679`
to four decimals; the string returned is `"0.367879Mbps"`. -/
theorem AdjustDataRate_value (ip fp : List (Fin 10)) (L : ℝ) (hip : ip ≠ [])
    (hr : inDoubleRange (numeralValue ip fp : ℝ)) :
    AdjustDataRateMbps Real.exp (numeralString ip fp ++ "Mbps") L =
      some (numeralValue ip fp * Real.exp (-L / 10)) ∧
    AdjustDataRate Real.exp (numeralString ip fp ++ "Mbps") L =
      some (to_string ((numeralValue ip fp : ℝ) * Real.exp (-L / 10)) ++ "Mbps") ∧
    AdjustDataRateMbps Real.exp "1Mbps" 10 = some (1 * Real.exp (-1)) ∧
    |1 * Real.exp (-1) - 0.3679| < 0.00005 ∧
    AdjustDataRate Real.exp "1Mbps" 10 = some "0.367879Mbps" := by
  have hx := stod_numeral ip fp hip hr
  have hv := AdjustDataRateMbps_append Real.exp (numeralString ip fp) "Mbps"
    (numeralValue ip fp) L (by decide) hx
  refine ⟨hv, ?_, ?_, ?_, ?_⟩
  · unfold AdjustDataRate
    rw [hv]
  · have h := AdjustDataRateMbps_append Real.exp "1" "Mbps" 1 10 (by decide) stod_zero_one.2
    have e : (-10 : ℝ) / 10 = -1 := by norm_num
    rw [e] at h
    exact h
  · obtain ⟨h1, h2⟩ := exp_neg_one_bounds
    rw [abs_lt]
    constructor <;> linarith
  · have h := AdjustDataRate_append "1" "Mbps" 1 10 (by decide) stod_zero_one.2
    have e : (-10 : ℝ) / 10 = -1 := by norm_num
    rw [e, to_string_exp_neg_one] at h
    exact h

/-- Witness for the amended C7: the nominal rate `"0.25Mbps"` and the loss `10`. -/
theorem AdjustDataRate_value_witness :
    numeralString [0] [2, 5] = "0.25" ∧ (numeralValue [0] [2, 5] : ℝ) = 1 / 4 ∧
    AdjustDataRateMbps Real.exp (numeralString [0] [2, 5] ++ "Mbps") 10 =
      some (numeralValue [0] [2, 5] * Real.exp (-10 / 10)) :=
  have hdig : Nat.ofDigits 10 ((([0] : List (Fin 10)) ++ [2, 5]).reverse.map Fin.val) = 25 := by
    decide
  have hval : (numeralValue [0] [2, 5] : ℝ) = 1 / 4 := by
    unfold numeralValue
    rw [hdig]
    norm_num
  ⟨by decide, hval,
    (AdjustDataRate_value [0] [2, 5] 10 (by decide)
      (by rw [hval]; exact inDoubleRange_examples.2.1)).1⟩

/-- C8, as stated, fails: for the nominal rate `"0Mbps"` (value `0`) and the loss `10 > 0`
the adapted rate is `0`, which is not below the nominal rate. -/
theorem adapt_decrease_counterexample :
    ∃ v : ℝ, (stod "0" : Option ℝ) = some 0 ∧
      AdjustDataRateMbps Real.exp "0Mbps" 10 = some v ∧ (0 : ℝ) < 10 ∧ ¬ v < 0 := by
  refine ⟨0 * Real.exp (-10 / 10), stod_zero_one.1, ?_, by norm_num, by simp⟩
  exact AdjustDataRateMbps_append Real.exp "0" "Mbps" 0 10 (by decide) stod_zero_one.1

/-- C8, amended: for every nominal rate `x`, the rate adapted with loss `0` equals `x`;
and for every nominal rate `x > 0` and every loss `L > 0` the adapted rate is strictly
below `x`. -/
theorem adapt_zero_loss_and_decrease (num : String) (x L : ℝ) (hx : stod num = some x) :
    AdjustDataRateMbps Real.exp (num ++ "Mbps") 0 = some x ∧
    (0 < x → 0 < L →
      ∃ v, AdjustDataRateMbps Real.exp (num ++ "Mbps") L = some v ∧ v < x) := by
  constructor
  · rw [AdjustDataRateMbps_append Real.exp num "Mbps" x 0 (by decide) hx]
    simp
  · intro hpos hL
    refine ⟨_, AdjustDataRateMbps_append Real.exp num "Mbps" x L (by decide) hx, ?_⟩
    have hneg : -L / 10 < 0 := by
      have : -L / 10 = -(L / 10) := by ring
      rw [this]
      exact neg_neg_of_pos (div_pos hL (by norm_num))
    have hlt : Real.exp (-L / 10) < 1 := by
      have h := Real.exp_lt_exp.2 hneg
      rwa [Real.exp_zero] at h
    calc x * Real.exp (-L / 10) < x * 1 := mul_lt_mul_of_pos_left hlt hpos
      _ = x := mul_one x

/-- Witness for the amended C8: the nominal rate `"1Mbps"` and the loss `10`. -/
theorem adapt_zero_loss_and_decrease_witness :
    AdjustDataRateMbps Real.exp ("1" ++ "Mbps") 0 = some (1 : ℝ) ∧
    ∃ v, AdjustDataRateMbps Real.exp ("1" ++ "Mbps") 10 = some v ∧ v < (1 : ℝ) :=
  ⟨(adapt_zero_loss_and_decrease "1" 1 10 stod_zero_one.2).1,
   (adapt_zero_loss_and_decrease "1" 1 10 stod_zero_one.2).2 (by norm_num) (by norm_num)⟩

/-- C9, as stated, fails: for the nominal rate `"1Gbps"` and the loss `0` the returned
string is `"1.000000Mbps"`; its unit suffix is `"Mbps"`, not the `"Gbps"` of the input. -/
theorem AdjustDataRate_unit_counterexample :
    AdjustDataRate Real.exp "1Gbps" 0 = some "1.000000Mbps" ∧
    unitSuffix "1Gbps" = "Gbps" ∧ unitSuffix "1.000000Mbps" = "Mbps" ∧
    unitSuffix "1.000000Mbps" ≠ unitSuffix "1Gbps" := by
  refine ⟨?_, by decide, by decide, by decide⟩
  have h := AdjustDataRate_append "1" "Gbps" 1 0 (by decide) stod_zero_one.2
  have e : (1 : ℝ) * Real.exp (-0 / 10) = 1 := by simp
  rw [e, to_string_one] at h
  exact h

/-- C9, amended: for a rate string made of a numeral followed by any four-character
suffix, `AdjustDataRate` returns a string that ends with `"Mbps"`; the returned string
carries the unit suffix of its input exactly when that suffix is `"Mbps"`. -/
theorem AdjustDataRate_unit (num suf : String) (x L : ℝ) (hsuf : suf.length = 4)
    (hx : stod num = some x) :
    ∃ out, AdjustDataRate Real.exp (num ++ suf) L = some out ∧
      unitSuffix out = "Mbps" ∧
      (unitSuffix out = unitSuffix (num ++ suf) ↔ suf = "Mbps") := by
  refine ⟨_, AdjustDataRate_append num suf x L hsuf hx, ?_, ?_⟩
  · exact unitSuffix_append _ "Mbps" (by decide)
  · rw [unitSuffix_append _ "Mbps" (by decide), unitSuffix_append num suf hsuf]
    exact eq_comm

/-- Witness for the amended C9: the nominal rate `"1Mbps"` and the loss `10`. -/
theorem AdjustDataRate_unit_witness :
    ∃ out, AdjustDataRate Real.exp ("1" ++ "Mbps") (10 : ℝ) = some out ∧
      unitSuffix out = "Mbps" ∧
      (unitSuffix out = unitSuffix ("1" ++ "Mbps") ↔ "Mbps" = "Mbps") :=
  AdjustDataRate_unit "1" "Mbps" 1 10 (by decide) stod_zero_one.2

/-- C12, as stated, fails.  At the distance `0` both functions evaluate `std::log10` at
`0` and return `-inf`; at the distance `-1` they evaluate it at `-1` and return NaN.  No
error is reported, and the value is not the loss at any positive distance, which is a
finite number. -/
theorem optical_loss_no_guard_counterexample :
    CalculateVlcLoss (Double.log10 (Real.logb 10)) (Double.fin 0) = Double.negInf ∧
    CalculateOwcLoss (Double.log10 (Real.logb 10)) (Double.fin 0) = Double.negInf ∧
    CalculateVlcLoss (Double.log10 (Real.logb 10)) (Double.fin (-1)) = Double.nan ∧
    CalculateOwcLoss (Double.log10 (Real.logb 10)) (Double.fin (-1)) = Double.nan ∧
    (∀ dmin : ℝ, 0 < dmin →
      CalculateVlcLoss (Double.log10 (Real.logb 10)) (Double.fin dmin)
        = Double.fin (10 * Real.logb 10 dmin - 1) ∧
      CalculateOwcLoss (Double.log10 (Real.logb 10)) (Double.fin dmin)
        = Double.fin (1 + 20 * Real.logb 10 dmin)) := by
  obtain ⟨hv0, ho0⟩ := loss_nonpositive (Real.logb 10) 0 (le_refl 0)
  obtain ⟨hv1, ho1⟩ := loss_nonpositive (Real.logb 10) (-1) (by norm_num)
  rw [if_pos rfl] at hv0 ho0
  rw [if_neg (by norm_num)] at hv1 ho1
  exact ⟨hv0, ho0, hv1, ho1, fun dmin h => loss_positive (Real.logb 10) dmin h⟩

/-- C12, amended: the two optical loss functions neither reject nor clamp a non-positive
distance.  For every `d ≤ 0`, `std::log10` is evaluated at `d` itself (at `d / 1` in
`CalculateOwcLoss`), no error is reported, and both functions return `-inf` when `d = 0`
and NaN when `d < 0`. -/
theorem optical_loss_no_guard (d : ℝ) (hd : d ≤ 0) :
    (∀ log10 : Double ℝ → Double ℝ,
      CalculateVlcLoss log10 (Double.fin d) = 10 * 1 * log10 (Double.fin d) - 1 ∧
      CalculateOwcLoss log10 (Double.fin d) = 1 + 10 * 2 * log10 (Double.fin d / 1) ∧
      Double.fin d / 1 = Double.fin d) ∧
    CalculateVlcLoss (Double.log10 (Real.logb 10)) (Double.fin d)
      = (if d = 0 then Double.negInf else Double.nan) ∧
    CalculateOwcLoss (Double.log10 (Real.logb 10)) (Double.fin d)
      = (if d = 0 then Double.negInf else Double.nan) := by
  refine ⟨fun log10 => ⟨rfl, rfl, ?_⟩, (loss_nonpositive (Real.logb 10) d hd).1,
    (loss_nonpositive (Real.logb 10) d hd).2⟩
  simp [Double.div_eq, Double.div, Double.ofNat_eq]

/-- Witness for the amended C12: the distance `-1`. -/
theorem optical_loss_no_guard_witness :
    CalculateVlcLoss (Double.log10 (Real.logb 10)) (Double.fin (-1))
      = (if (-1 : ℝ) = 0 then Double.negInf else Double.nan) ∧
    CalculateOwcLoss (Double.log10 (Real.logb 10)) (Double.fin (-1))
      = (if (-1 : ℝ) = 0 then Double.negInf else Double.nan) :=
  (optical_loss_no_guard (-1) (by norm_num)).2

/-- C13: with the parameters `lte-urbano.cc` configures (`ReferenceLoss = 40.7`,
`Exponent = 3.7`) the log-distance loss is `40.7 + 10 * 3.7 * log10 d`, and at
`d = 100` it is `40.7 + 37 * 2 = 114.7`. -/
theorem LogDistanceLoss_macro (d : ℝ) :
    (Lte.ReferenceLoss : ℝ) = 40.7 ∧ (Lte.Exponent : ℝ) = 3.7 ∧
    LogDistanceLoss (Real.logb 10) Lte.ReferenceLoss Lte.Exponent d
      = 40.7 + 10 * 3.7 * Real.logb 10 d ∧
    LogDistanceLoss (Real.logb 10) Lte.ReferenceLoss Lte.Exponent 100 = 40.7 + 37 * 2 ∧
    LogDistanceLoss (Real.logb 10) Lte.ReferenceLoss Lte.Exponent 100 = 114.7 := by
  refine ⟨rfl, rfl, rfl, ?_, ?_⟩
  · simp only [LogDistanceLoss, Lte.ReferenceLoss, Lte.Exponent, logb_ten_hundred]
    norm_num
  · simp only [LogDistanceLoss, Lte.ReferenceLoss, Lte.Exponent, logb_ten_hundred]
    norm_num

/-- C14 fails on the code: with `centralFreq = 28e9` the value `refLoss` that
`nr-6g-urbano-lite.cc` computes is `32.45 + 20 * log10 28000`, which lies between
`121.35` and `121.45`: it is not within `0.1` of the `61.4` dB of the comment.  The
computed value exceeds the free-space loss at 1 m by the `60` dB between 1 km and 1 m:
`refLoss - 60` is within `0.1` of `61.4`. -/
theorem refLoss_value :
    NrLite.refLoss (Real.logb 10) (NrLite.centralFreq : ℝ) = 32.45 + 20 * Real.logb 10 28000 ∧
    121.35 < NrLite.refLoss (Real.logb 10) (NrLite.centralFreq : ℝ) ∧
    NrLite.refLoss (Real.logb 10) (NrLite.centralFreq : ℝ) < 121.45 ∧
    ¬ |NrLite.refLoss (Real.logb 10) (NrLite.centralFreq : ℝ) - 61.4| ≤ 0.1 ∧
    |NrLite.refLoss (Real.logb 10) (NrLite.centralFreq : ℝ) - 60 - 61.4| < 0.1 := by
  have e : NrLite.refLoss (Real.logb 10) (NrLite.centralFreq : ℝ)
      = 32.45 + 20 * Real.logb 10 28000 := by
    simp only [NrLite.refLoss, NrLite.centralFreq]
    norm_num
  obtain ⟨h1, h2⟩ := logb_ten_28000
  rw [e]
  refine ⟨rfl, by linarith, by linarith, ?_, ?_⟩
  · rw [not_le, lt_abs]
    left; linarith
  · rw [abs_lt]
    constructor <;> linarith

/-- C15: between rows the grid is a hexagonal lattice.  For `r + 1 < rows` and `c < cols`
the sites of rows `r` and `r + 1` at column `c` are shifted by `isd / 2` horizontally and
by `isd * sqrt 3 / 2` vertically, and their Euclidean distance is exactly `|isd|`, the
same as the distance of two horizontally adjacent sites of row `r`. -/
theorem adjacent_rows_distance (rows cols r c : Nat) (isd z : ℝ)
    (hr : r + 1 < rows) (hc : c < cols) :
    ∃ p q : Vector ℝ,
      (MakeHexGrid Real.sqrt rows cols isd z)[r * cols + c]? = some p ∧
      (MakeHexGrid Real.sqrt rows cols isd z)[(r + 1) * cols + c]? = some q ∧
      |q.x - p.x| = |isd| / 2 ∧ q.y - p.y = isd * Real.sqrt 3 / 2 ∧
      distance Real.sqrt p q = |isd| ∧
      (∀ c' : Nat, c' + 1 < cols → ∃ a b : Vector ℝ,
        (MakeHexGrid Real.sqrt rows cols isd z)[r * cols + c']? = some a ∧
        (MakeHexGrid Real.sqrt rows cols isd z)[r * cols + (c' + 1)]? = some b ∧
        distance Real.sqrt a b = |isd|) := by
  refine ⟨_, _, MakeHexGrid_site Real.sqrt rows cols r c isd z (by omega) hc,
    MakeHexGrid_site Real.sqrt rows cols (r + 1) c isd z hr hc, ?_, ?_, ?_, ?_⟩
  · rcases Nat.mod_two_eq_zero_or_one r with h | h
    · have h' : (r + 1) % 2 = 1 := by omega
      simp only [h, h', ne_eq, not_true_eq_false, if_false, one_ne_zero, not_false_eq_true,
        if_true]
      have : (c : ℝ) * isd + isd / 2 - ((c : ℝ) * isd + 0) = isd / 2 := by ring
      rw [this, abs_div, abs_two]
    · have h' : (r + 1) % 2 = 0 := by omega
      simp only [h, h', ne_eq, not_true_eq_false, if_false, one_ne_zero, not_false_eq_true,
        if_true]
      have : (c : ℝ) * isd + 0 - ((c : ℝ) * isd + isd / 2) = -(isd / 2) := by ring
      rw [this, abs_neg, abs_div, abs_two]
  · push_cast; ring
  · have hy : ((r + 1 : Nat) : ℝ) * (isd * Real.sqrt 3 / 2)
        = (r : ℝ) * (isd * Real.sqrt 3 / 2) + isd * Real.sqrt 3 / 2 := by push_cast; ring
    rw [hy]
    rcases Nat.mod_two_eq_zero_or_one r with h | h
    · have h' : (r + 1) % 2 = 1 := by omega
      simp only [h, h', ne_eq, not_true_eq_false, if_false, one_ne_zero, not_false_eq_true,
        if_true]
      have hx : (c : ℝ) * isd + isd / 2 = ((c : ℝ) * isd + 0) + isd / 2 := by ring
      rw [hx]
      exact distance_hex_step _ _ _ isd _ (Or.inl rfl)
    · have h' : (r + 1) % 2 = 0 := by omega
      simp only [h, h', ne_eq, not_true_eq_false, if_false, one_ne_zero, not_false_eq_true,
        if_true]
      have hx : (c : ℝ) * isd + 0 = ((c : ℝ) * isd + isd / 2) + -(isd / 2) := by ring
      rw [hx]
      exact distance_hex_step _ _ _ isd _ (Or.inr rfl)
  · intro c' hc'
    refine ⟨_, _, MakeHexGrid_site Real.sqrt rows cols r c' isd z (by omega) (by omega),
      MakeHexGrid_site Real.sqrt rows cols r (c' + 1) isd z (by omega) hc', ?_⟩
    rw [distance_same_yz]
    have : (c' : ℝ) * isd + (if r % 2 ≠ 0 then isd / 2 else 0)
        - (((c' + 1 : Nat) : ℝ) * isd + (if r % 2 ≠ 0 then isd / 2 else 0)) = - isd := by
      push_cast; ring
    rw [this, abs_neg]

/-- Witness for C15: rows 0 and 1, column 1, of the 2 x 2 grid with `isd = 600`. -/
theorem adjacent_rows_distance_witness :
    ∃ p q : Vector ℝ,
      (MakeHexGrid Real.sqrt 2 2 600 25)[0 * 2 + 1]? = some p ∧
      (MakeHexGrid Real.sqrt 2 2 600 25)[(0 + 1) * 2 + 1]? = some q ∧
      |q.x - p.x| = |(600 : ℝ)| / 2 ∧ q.y - p.y = 600 * Real.sqrt 3 / 2 ∧
      distance Real.sqrt p q = |(600 : ℝ)| ∧
      (∀ c' : Nat, c' + 1 < 2 → ∃ a b : Vector ℝ,
        (MakeHexGrid Real.sqrt 2 2 600 25)[0 * 2 + c']? = some a ∧
        (MakeHexGrid Real.sqrt 2 2 600 25)[0 * 2 + (c' + 1)]? = some b ∧
        distance Real.sqrt a b = |(600 : ℝ)|) :=
  adjacent_rows_distance 2 2 0 1 600 25 (by decide) (by decide)

/-- C16: for `0 < d < 10 ^ (1 / 10)` (about `1.2589`) `CalculateVlcLoss d` is negative and
the rate `AdjustDataRate` computes from it for a positive nominal rate `x` is strictly
above `x`; for `d > 10 ^ (1 / 10)` the loss is positive and the adapted rate is strictly
below `x`. -/
theorem vlc_loss_sign (d : ℝ) (num : String) (x : ℝ) (hx : stod num = some x)
    (hpos : 0 < x) :
    (0 < d → d < (10 : ℝ) ^ ((1 : ℝ) / 10) →
      CalculateVlcLoss (Real.logb 10) d < 0 ∧
      ∃ v, AdjustDataRateMbps Real.exp (num ++ "Mbps") (CalculateVlcLoss (Real.logb 10) d)
          = some v ∧ x < v) ∧
    ((10 : ℝ) ^ ((1 : ℝ) / 10) < d →
      0 < CalculateVlcLoss (Real.logb 10) d ∧
      ∃ v, AdjustDataRateMbps Real.exp (num ++ "Mbps") (CalculateVlcLoss (Real.logb 10) d)
          = some v ∧ v < x) ∧
    ((1.2589 : ℝ) < (10 : ℝ) ^ ((1 : ℝ) / 10) ∧ (10 : ℝ) ^ ((1 : ℝ) / 10) < 1.259) := by
  have hval : CalculateVlcLoss (Real.logb 10) d = 10 * Real.logb 10 d - 1 := by
    simp only [CalculateVlcLoss]; ring
  have hadj := AdjustDataRateMbps_append Real.exp num "Mbps" x
    (CalculateVlcLoss (Real.logb 10) d) (by decide) hx
  obtain ⟨hup, hdown⟩ := mul_exp_neg_div_ten x (CalculateVlcLoss (Real.logb 10) d) hpos
  refine ⟨?_, ?_, ten_rpow_tenth_bounds⟩
  · intro hd hlt
    have hlog : Real.logb 10 d < 1 / 10 :=
      (Real.logb_lt_iff_lt_rpow (by norm_num) hd).2 hlt
    have hneg : CalculateVlcLoss (Real.logb 10) d < 0 := by rw [hval]; linarith
    exact ⟨hneg, _, hadj, hup hneg⟩
  · intro hlt
    have hd : 0 < d := lt_trans (Real.rpow_pos_of_pos (by norm_num) _) hlt
    have hlog : 1 / 10 < Real.logb 10 d :=
      (Real.lt_logb_iff_rpow_lt (by norm_num) hd).2 hlt
    have hp : 0 < CalculateVlcLoss (Real.logb 10) d := by rw [hval]; linarith
    exact ⟨hp, _, hadj, hdown hp⟩

/-- Witness for C16: the nominal rate `"1Mbps"` at the distance `20` m of `main`, where
the loss is positive. -/
theorem vlc_loss_sign_witness :
    0 < CalculateVlcLoss (Real.logb 10) 20 ∧
    ∃ v, AdjustDataRateMbps Real.exp ("1" ++ "Mbps") (CalculateVlcLoss (Real.logb 10) 20)
        = some v ∧ v < 1 :=
  (vlc_loss_sign 20 "1" 1 stod_zero_one.2 (by norm_num)).2.1
    (lt_trans ten_rpow_tenth_bounds.2 (by norm_num))

/-- C17: the effect of the sanity check on receiver `i`, whose position before the pass
is `up`.  The pass returns one position per receiver.  If `up` is at distance at least
`eps` of every transmitter, the receiver keeps its position.  If `up` is within `eps` of
some transmitter, let `gp` be the last such transmitter in list order (`l₁` before it,
`l₂` after it): the receiver ends at `up + (j, j, 0)` with `j = 0.5 + 0.005 * k`, where
`k = std::rand() % 100`, `0 ≤ k ≤ 99`, is the draw made at `gp` (so `0.5 ≤ j < 1`); every
check uses `up`, so nothing accumulates and the new position is not checked.  In both
cases the `z` coordinate is unchanged.  (Transmitter positions are only read.) -/
theorem SanityCheck_effect (rand : Nat → Nat) (gnbNodes ueNodes : List (Vector ℝ))
    (calls i : Nat) (up : Vector ℝ) (hi : ueNodes[i]? = some up) :
    (SanityCheck Real.sqrt rand gnbNodes ueNodes calls).1.length = ueNodes.length ∧
    ((∀ gp ∈ gnbNodes, eps ≤ distance Real.sqrt up gp) →
      (SanityCheck Real.sqrt rand gnbNodes ueNodes calls).1[i]? = some up) ∧
    (∀ (l₁ : List (Vector ℝ)) (gp : Vector ℝ) (l₂ : List (Vector ℝ)),
      gnbNodes = l₁ ++ gp :: l₂ → distance Real.sqrt up gp < eps →
      (∀ g ∈ l₂, eps ≤ distance Real.sqrt up g) →
      ∃ k : Nat, k ≤ 99 ∧
        k = rand (SanityCheckUe Real.sqrt rand l₁ up
              (SanityCheck Real.sqrt rand gnbNodes (ueNodes.take i) calls).2).2 % 100 ∧
        (SanityCheck Real.sqrt rand gnbNodes ueNodes calls).1[i]? =
          some (Vector.mk (up.x + (0.5 + 0.005 * (k : ℝ))) (up.y + (0.5 + 0.005 * (k : ℝ)))
            up.z) ∧
        (0.5 : ℝ) ≤ 0.5 + 0.005 * (k : ℝ) ∧ (0.5 + 0.005 * (k : ℝ) : ℝ) < 1) ∧
    ((∃ gp ∈ gnbNodes, distance Real.sqrt up gp < eps) →
      ∃ k : Nat, k ≤ 99 ∧
        (SanityCheck Real.sqrt rand gnbNodes ueNodes calls).1[i]? =
          some (Vector.mk (up.x + (0.5 + 0.005 * (k : ℝ))) (up.y + (0.5 + 0.005 * (k : ℝ)))
            up.z)) ∧
    (∀ q : Vector ℝ,
      (SanityCheck Real.sqrt rand gnbNodes ueNodes calls).1[i]? = some q → q.z = up.z) := by
  have hget := SanityCheck_getElem Real.sqrt rand gnbNodes ueNodes calls i up hi
  have hfar : (∀ gp ∈ gnbNodes, eps ≤ distance Real.sqrt up gp) →
      (SanityCheck Real.sqrt rand gnbNodes ueNodes calls).1[i]? = some up := by
    intro h
    rw [hget]
    unfold SanityCheckUe
    rw [SanityCheckStep_foldl_far Real.sqrt rand up gnbNodes _
      (fun gp hgp => not_lt.2 (h gp hgp))]
  have hnear : ∀ (l₁ : List (Vector ℝ)) (gp : Vector ℝ) (l₂ : List (Vector ℝ)),
      gnbNodes = l₁ ++ gp :: l₂ → distance Real.sqrt up gp < eps →
      (∀ g ∈ l₂, eps ≤ distance Real.sqrt up g) →
      ∃ k : Nat, k ≤ 99 ∧
        k = rand (SanityCheckUe Real.sqrt rand l₁ up
              (SanityCheck Real.sqrt rand gnbNodes (ueNodes.take i) calls).2).2 % 100 ∧
        (SanityCheck Real.sqrt rand gnbNodes ueNodes calls).1[i]? =
          some (Vector.mk (up.x + (0.5 + 0.005 * (k : ℝ))) (up.y + (0.5 + 0.005 * (k : ℝ)))
            up.z) ∧
        (0.5 : ℝ) ≤ 0.5 + 0.005 * (k : ℝ) ∧ (0.5 + 0.005 * (k : ℝ) : ℝ) < 1 := by
    intro l₁ gp l₂ hl hgp h₂
    obtain ⟨hk, hj, hlo, hhi⟩ := jitter_bounds (rand (SanityCheckUe Real.sqrt rand l₁ up
      (SanityCheck Real.sqrt rand gnbNodes (ueNodes.take i) calls).2).2)
    refine ⟨_, hk, rfl, ?_, hlo, hhi⟩
    rw [hget]
    have hlast := SanityCheckUe_last_near Real.sqrt rand up gp l₁ l₂
      (SanityCheck Real.sqrt rand gnbNodes (ueNodes.take i) calls).2 hgp
      (fun g hg => not_lt.2 (h₂ g hg))
    rw [← hl] at hlast
    rw [hlast, hj]
  refine ⟨SanityCheck_length Real.sqrt rand gnbNodes ueNodes calls, hfar, hnear, ?_, ?_⟩
  · intro hex
    obtain ⟨l₁, gp, l₂, hl, hgp, h₂⟩ := exists_last_near Real.sqrt up gnbNodes hex
    obtain ⟨k, hk, _, hout, _, _⟩ := hnear l₁ gp l₂ hl hgp (fun g hg => not_lt.1 (h₂ g hg))
    exact ⟨k, hk, hout⟩
  · intro q hq
    by_cases hex : ∃ gp ∈ gnbNodes, distance Real.sqrt up gp < eps
    · obtain ⟨l₁, gp, l₂, hl, hgp, h₂⟩ := exists_last_near Real.sqrt up gnbNodes hex
      obtain ⟨k, _, _, hout, _, _⟩ := hnear l₁ gp l₂ hl hgp (fun g hg => not_lt.1 (h₂ g hg))
      rw [hout] at hq
      rw [← Option.some.inj hq]
    · have hall : ∀ gp ∈ gnbNodes, eps ≤ distance Real.sqrt up gp := by
        intro gp hgp
        exact not_lt.1 (fun hlt => hex ⟨gp, hgp, hlt⟩)
      rw [hfar hall] at hq
      rw [← Option.some.inj hq]

/-- Witness for C17: one receiver on the first of two transmitters `(0.5, 0.5, 0)` apart. -/
theorem SanityCheck_effect_witness :
    ∃ k : Nat, k ≤ 99 ∧
      (SanityCheck Real.sqrt (fun _ => 0) [Vector.mk 0 0 0, Vector.mk 0.5 0.5 0]
        [Vector.mk 0 0 0] 0).1[0]? =
        some (Vector.mk ((0 : ℝ) + (0.5 + 0.005 * (k : ℝ))) ((0 : ℝ) + (0.5 + 0.005 * (k : ℝ)))
          0) :=
  (SanityCheck_effect (fun _ => 0) [Vector.mk 0 0 0, Vector.mk 0.5 0.5 0]
    [Vector.mk 0 0 0] 0 0 (Vector.mk 0 0 0) rfl).2.2.2.1
    ⟨Vector.mk 0 0 0, List.mem_cons_self _ _, distance_self_lt_eps _⟩

end Urbano
